import Mathlib

/-!
Verification of the cobalt/gridcentric VM-cloning extension.

The definitions below are a shallow embedding of the repository's code:

* `src/nova/gridcentric/nova/extension/api.py` — the Registry Coordinator
  (`API.bless_instance`, `API.launch_instance`, `API.discard_instance`,
  `API._copy_instance`, `API._next_clone_num`, `API.list_launched_instances`).
  The nova database is modelled as an explicit `DB` state threaded through
  every operation; a raised exception is modelled as an `Except`-style error
  paired with the (unchanged) database state, since the code raises before
  performing any mutation.

* `src/cobalt/nova/extension/vmsconn.py` — the Lifecycle Orchestrator
  (`LibvirtConnection.pre_launch` image fetch, `LibvirtConnection._delete_images`,
  `LibvirtConnection._upload_files`, `VmsConnection._get_glance_displayname_and_type`,
  `VmsConnection._friendly_upload`).  The local filesystem and the image
  service (glance) are external collaborators; they are modelled at their
  interface as explicit states (`FS`, `ImgStore`).

Python dictionaries are modelled as association lists with first-match
lookup; dictionary assignment replaces any previous binding for the key.
-/

/-! ## Association-list maps (the model of Python dict lookup/assignment) -/

def alGet [BEq κ] (m : List (κ × α)) (k : κ) : Option α :=
  match m with
  | [] => none
  | p :: t => if p.1 == k then some p.2 else alGet t k

def alSet [BEq κ] (m : List (κ × α)) (k : κ) (v : α) : List (κ × α) :=
  (k, v) :: m.filter (fun p => !(p.1 == k))

/-! ## Registry Coordinator: data model

Tags (nova instance metadata) are a Python dict from string keys to Python
values: the relationship tags hold strings (`'%s' % instance_id`), while
`last_clone_num` is written as a plain int (`metadata['last_clone_num'] =
clone_num`).  Values are therefore modelled as a sum; the registry
collaborator stores and returns them unchanged.  `vm_states` is the nova
lifecycle-state enumeration; only `ACTIVE` and `BUILDING` are inspected or
written by the code under study. -/

inductive PyVal where
  | str (s : String)
  | int (n : Int)
  | bool (b : Bool)
  deriving DecidableEq, Repr

/-- Python's `int(...)` on a metadata value.  The code only ever applies it
to ints it stored itself (or to absent keys, handled by `dict.get`), so the
string branch's fallback is never exercised on reachable states. -/
def pyInt : PyVal → Int
  | .int n => n
  | .bool b => if b then 1 else 0
  | .str s => (s.toInt?).getD 0

abbrev Tags := List (String × PyVal)

def tagGet (m : Tags) (k : String) : Option PyVal := alGet m k

def tagSet (m : Tags) (k : String) (v : PyVal) : Tags := alSet m k v

inductive VmState where
  | building
  | active
  | paused
  | suspended
  | error
  | deletedState
  deriving DecidableEq, Repr

/-- The nova instance record, restricted to the fields the gridcentric API
reads or writes (`API._copy_instance` copies the descriptive fields;
`vm_state`, `metadata` and `deleted` drive the validation logic). -/
structure Instance where
  metadata : Tags
  vm_state : VmState
  deleted : Bool
  image_ref : String
  image_id : String
  instance_type_id : Nat
  memory_mb : Nat
  vcpus : Nat
  local_gb : Nat
  display_name : String
  display_description : String
  user_data : String
  key_name : String
  key_data : String
  availability_zone : String
  os_type : String
  user_id : String
  project_id : String
  host : Option String
  deriving DecidableEq, Repr

/-- The instance registry (nova database): rows keyed by instance id, plus
the next primary key handed out by `instance_create`. -/
structure DB where
  instances : List (Nat × Instance)
  nextId : Nat
  deriving Repr

/-- Request context: the caller identity recorded on created records. -/
structure Context where
  user_id : String
  project_id : String
  deriving DecidableEq, Repr

/-- Errors raised by the Registry Coordinator.  The source raises
`exception.Error` with a distinguishing message for each case; the messages
are modelled as distinct constructors. -/
inductive GcError where
  | instanceNotFound
  | alreadyBlessed
  | alreadyLaunched
  | notActive
  | notBlessed
  | hasDependents
  | quotaExceeded
  deriving DecidableEq, Repr

/-! ## Registry Coordinator: database primitives (nova db API at its interface) -/

def instance_get (db : DB) (iid : Nat) : Option Instance :=
  alGet db.instances iid

/-- `db.instance_metadata_get`: the metadata rows for an instance; an
unknown id simply has no rows. -/
def instance_metadata_get (db : DB) (iid : Nat) : Tags :=
  match instance_get db iid with
  | some inst => inst.metadata
  | none => []

/-- `db.instance_metadata_update(ctx, id, metadata, True)`: full replacement
of the instance's metadata. -/
def instance_metadata_update (db : DB) (iid : Nat) (md : Tags) : DB :=
  { db with instances :=
      db.instances.map (fun p => if p.1 == iid then (p.1, { p.2 with metadata := md }) else p) }

/-- `db.instance_create`: inserts a new row with the next primary key. -/
def instance_create (db : DB) (inst : Instance) : DB × Nat :=
  ({ instances := db.instances ++ [(db.nextId, inst)], nextId := db.nextId + 1 }, db.nextId)

/-! ## Registry Coordinator: operations (`API` in api.py) -/

/-- `API._is_instance_blessed`. -/
def _is_instance_blessed (db : DB) (iid : Nat) : Bool :=
  (tagGet (instance_metadata_get db iid) "blessed_from").isSome

/-- `API._is_instance_launched`. -/
def _is_instance_launched (db : DB) (iid : Nat) : Bool :=
  (tagGet (instance_metadata_get db iid) "launched_from").isSome

/-- `API._next_clone_num`: reads `last_clone_num` from the source's metadata
(defaulting to -1), increments it, writes it back, and returns it.  The value
stored is always a decimal numeral written by this very function, so the
`int(...)` conversion in the source never fails on reachable states; the
parse default below is therefore never exercised. -/
def _next_clone_num (db : DB) (iid : Nat) : DB × Int :=
  let metadata := instance_metadata_get db iid
  let clone_num : Int :=
    (match tagGet metadata "last_clone_num" with
     | some v => pyInt v
     | none => -1) + 1
  let metadata' := tagSet metadata "last_clone_num" (PyVal.int clone_num)
  (instance_metadata_update db iid metadata', clone_num)

/-- The record `API._copy_instance` builds from the source row: the
descriptive fields are copied, the state is `BUILDING`, and the metadata is
exactly one of the two relationship tags according to the `launch` flag. -/
def copied_instance (ctx : Context) (instance_ref : Instance) (iid : Nat)
    (new_suffix : String) (launch : Bool) : Instance :=
  { metadata :=
      if launch then [("launched_from", PyVal.str (toString iid))]
      else [("blessed_from", PyVal.str (toString iid))]
    vm_state := VmState.building
    deleted := false
    image_ref := if instance_ref.image_ref = "" then instance_ref.image_id
                 else instance_ref.image_ref
    image_id := instance_ref.image_id
    instance_type_id := instance_ref.instance_type_id
    memory_mb := instance_ref.memory_mb
    vcpus := instance_ref.vcpus
    local_gb := instance_ref.local_gb
    display_name := instance_ref.display_name ++ "-" ++ new_suffix
    display_description := instance_ref.display_description
    user_data := instance_ref.user_data
    key_name := instance_ref.key_name
    key_data := instance_ref.key_data
    availability_zone := instance_ref.availability_zone
    os_type := instance_ref.os_type
    user_id := ctx.user_id
    project_id := ctx.project_id
    host := none }

/-- `API._copy_instance`: clones the descriptive fields of the source row
into a new row in `BUILDING` state, tagged with exactly one of
`blessed_from` / `launched_from` according to the `launch` flag. -/
def _copy_instance (ctx : Context) (db : DB) (iid : Nat) (new_suffix : String)
    (launch : Bool) : DB × Except GcError Nat :=
  match instance_get db iid with
  | none => (db, Except.error GcError.instanceNotFound)
  | some instance_ref =>
    let (db', new_id) :=
      instance_create db (copied_instance ctx instance_ref iid new_suffix launch)
    (db', Except.ok new_id)

/-- `API.bless_instance`: validation (already blessed, already launched, not
active — in that order), then clone-number allocation, record creation and
dispatch to the worker.  All validation precedes every mutation, so each
error case returns the database unchanged. -/
def bless_instance (ctx : Context) (db : DB) (iid : Nat) : DB × Except GcError Nat :=
  match instance_get db iid with
  | none => (db, Except.error GcError.instanceNotFound)
  | some instance_ref =>
    let is_blessed := _is_instance_blessed db iid
    let is_launched := _is_instance_launched db iid
    if is_blessed then (db, Except.error GcError.alreadyBlessed)
    else if is_launched then (db, Except.error GcError.alreadyLaunched)
    else if instance_ref.vm_state ≠ VmState.active then
      (db, Except.error GcError.notActive)
    else
      let (db₁, clonenum) := _next_clone_num db iid
      _copy_instance ctx db₁ iid (toString clonenum) false

/-- `API.list_launched_instances`: instances whose metadata contains
`launched_from = <iid>` and which are not deleted. -/
def list_launched_instances (db : DB) (iid : Nat) : List (Nat × Instance) :=
  db.instances.filter (fun p =>
    tagGet p.2.metadata "launched_from" == some (PyVal.str (toString iid))
      && p.2.deleted == false)

/-- `API.discard_instance`: refuses a non-template (`NotBlessed`) and a
template with live dependents (`HasDependents`); otherwise casts the discard
to the worker (no registry mutation in this method). -/
def discard_instance (db : DB) (iid : Nat) : DB × Except GcError Unit :=
  if !(_is_instance_blessed db iid) then (db, Except.error GcError.notBlessed)
  else if (list_launched_instances db iid).length > 0 then
    (db, Except.error GcError.hasDependents)
  else (db, Except.ok ())

/-- The `params` dict accepted by `API.launch_instance`.  The coordinator
never reads it: it is forwarded verbatim to the scheduler cast. -/
structure LaunchParams where
  num_instances : Option Nat := none
  name : Option String := none
  deriving DecidableEq, Repr

/-- `API.launch_instance`: quota check (modelled by the external outcome
`quota_ok` of `quota.allowed_instances`, after the initial instance read),
then the `NotBlessed` validation, then creation of exactly one new record
with suffix "clone" and tag `launched_from`, and a cast to the scheduler. -/
def launch_instance (ctx : Context) (quota_ok : Bool) (db : DB) (iid : Nat)
    (_params : LaunchParams) : DB × Except GcError Nat :=
  match instance_get db iid with
  | none => (db, Except.error GcError.instanceNotFound)
  | some _ =>
    if !quota_ok then (db, Except.error GcError.quotaExceeded)
    else if !(_is_instance_blessed db iid) then (db, Except.error GcError.notBlessed)
    else _copy_instance ctx db iid "clone" true

/-! ## Registry Coordinator: derived predicates -/

/-- Database well-formedness: every primary key is below the next key to be
handed out (true of every database nova's `instance_create` builds). -/
def dbWF (db : DB) : Prop := ∀ p ∈ db.instances, p.1 < db.nextId

/-- The mutual-exclusion property of a tag map: `blessed_from` and
`launched_from` are never both present. -/
def mutexTags (md : Tags) : Prop :=
  ¬((tagGet md "blessed_from").isSome = true ∧ (tagGet md "launched_from").isSome = true)

/-- The spec's instance invariant, over every record of the registry. -/
def dbMutex (db : DB) : Prop := ∀ p ∈ db.instances, mutexTags p.2.metadata

/-! ## Lifecycle Orchestrator (vmsconn.py): filesystem model for `pre_launch`

The local filesystem is an external collaborator; it is modelled as a map
from path to file record.  Only the operations the fetch block performs are
modelled: create (mkstemp), write (download), chown, chmod, unlink, rename. -/

structure FileRec where
  content : Nat
  owner : Nat
  group : Nat
  mode : Nat
  deriving DecidableEq, Repr

abbrev FS := List (String × FileRec)

def fsGet (fs : FS) (p : String) : Option FileRec := alGet fs p

def fsSet (fs : FS) (p : String) (f : FileRec) : FS := alSet fs p f

def fsUnlink (fs : FS) (p : String) : FS := fs.filter (fun q => !(q.1 == p))

def fsRename (fs : FS) (src dst : String) : FS :=
  match fsGet fs src with
  | some f => fsSet (fsUnlink fs src) dst f
  | none => fs

/-- The fallible steps of the per-image fetch block in
`LibvirtConnection.pre_launch`, between `tempfile.mkstemp` and the final
`os.rename`. -/
inductive FetchStep where
  | closeStep
  | downloadStep
  | chownStep
  | chmodStep
  deriving DecidableEq, Repr

/-- Which of the fallible steps succeed on this run (the collaborators'
behaviour: `os.close`, `image_service.download`, `os.chown`, `os.chmod`). -/
structure FetchEnv where
  close_ok : Bool
  download_ok : Bool
  chown_ok : Bool
  chmod_ok : Bool
  deriving DecidableEq, Repr

/-- One iteration of the fetch loop in `LibvirtConnection.pre_launch`:
`fd, temp_target = tempfile.mkstemp(dir=...)` then a `try` block running
`os.close`, `image_service.download`, `os.chown`, `os.chmod(0644)`,
`os.rename(temp_target, target)`, with `except: os.unlink(temp_target);
raise`.  The returned option is the re-raised exception (the step that
failed), `none` on success. -/
def fetch_image (env : FetchEnv) (uid gid : Nat) (fs : FS)
    (temp_target target : String) (content : Nat) : FS × Option FetchStep :=
  let fs1 := fsSet fs temp_target { content := 0, owner := 0, group := 0, mode := 0o600 }
  if !env.close_ok then (fsUnlink fs1 temp_target, some FetchStep.closeStep)
  else if !env.download_ok then (fsUnlink fs1 temp_target, some FetchStep.downloadStep)
  else
    let fs2 := fsSet fs1 temp_target { content := content, owner := 0, group := 0, mode := 0o600 }
    if !env.chown_ok then (fsUnlink fs2 temp_target, some FetchStep.chownStep)
    else
      let fs3 := match fsGet fs2 temp_target with
        | some f => fsSet fs2 temp_target { f with owner := uid, group := gid }
        | none => fs2
      if !env.chmod_ok then (fsUnlink fs3 temp_target, some FetchStep.chmodStep)
      else
        let fs4 := match fsGet fs3 temp_target with
          | some f => fsSet fs3 temp_target { f with mode := 0o644 }
          | none => fs3
        (fsRename fs4 temp_target target, none)

/-! ## Lifecycle Orchestrator: image-service model (discard and durable bless) -/

/-- Outcome of one `image_service.delete` call as observed by
`LibvirtConnection._delete_images`: success, the two benign exceptions
(`exception.ImageNotFound`, `glanceclient.exc.HTTPForbidden`), or any other
exception. -/
inductive DeleteOutcome where
  | deleted
  | notFoundErr
  | forbiddenErr
  | otherErr
  deriving DecidableEq, Repr

/-- `LibvirtConnection._delete_images`: deletes every image reference in
turn; `ImageNotFound` / `HTTPForbidden` are swallowed (logged) and the loop
continues; any other exception propagates, identified here by the failing
reference. -/
def _delete_images (store : Nat → DeleteOutcome) : List Nat → Except Nat Unit
  | [] => Except.ok ()
  | image_ref :: rest =>
    match store image_ref with
    | DeleteOutcome.deleted => _delete_images store rest
    | DeleteOutcome.notFoundErr => _delete_images store rest
    | DeleteOutcome.forbiddenErr => _delete_images store rest
    | DeleteOutcome.otherErr => Except.error image_ref

/-- A glance image record: display name plus key/value properties. -/
structure ImageRec where
  name : String
  properties : Tags
  deriving DecidableEq, Repr

/-- The image service (glance) at its interface: records keyed by image id. -/
structure ImgStore where
  images : List (Nat × ImageRec)
  nextId : Nat
  deriving Repr

def emptyStore : ImgStore := { images := [], nextId := 0 }

/-- `image_service.create(context, name, instance_uuid=...)`. -/
def image_create (st : ImgStore) (name : String) (instance_uuid : String) :
    ImgStore × Nat :=
  ({ images := st.images ++
      [(st.nextId, { name := name,
                     properties := [("instance_uuid", PyVal.str instance_uuid)] })],
     nextId := st.nextId + 1 }, st.nextId)

/-- `image_service.show(context, id)['properties']`. -/
def image_show_props (st : ImgStore) (image_id : Nat) : Tags :=
  match alGet st.images image_id with
  | some r => r.properties
  | none => []

/-- `image_service.update(context, id, {'properties': props})`. -/
def image_update_props (st : ImgStore) (image_id : Nat) (props : Tags) : ImgStore :=
  { st with images :=
      st.images.map (fun p =>
        if p.1 == image_id then (p.1, { p.2 with properties := props }) else p) }

/-- The fields of the instance record read by the upload path
(`instance_ref['display_name' | 'uuid' | 'name' | 'project_id' |
'instance_type_id']`). -/
structure UploadInstance where
  display_name : String
  uuid : String
  name : String
  project_id : String
  instance_type_id : Int
  deriving DecidableEq, Repr

/-- `filename.split(".")[-2]` (well-defined whenever the filename ends in
".disk", which guarantees at least two dot-separated parts). -/
def py_split_penult (s : String) : String :=
  ((s.splitOn ".").reverse.drop 1).headD ""

/-- Index of the last occurrence of `c` in `cs` (Python `str.rfind`). -/
def rfind_idx (cs : List Char) (c : Char) : Option Nat :=
  (List.range cs.length).foldl
    (fun acc i => if cs.getD i c = c then some i else acc) none

/-- `os.path.splitext(s)[1]` (CPython semantics: the extension starts at the
last dot, unless every character of the basename before it is a dot). -/
def splitext_ext (s : String) : String :=
  let cs := s.toList
  let sepI : Int := match rfind_idx cs '/' with
    | some i => (i : Int)
    | none => -1
  match rfind_idx cs '.' with
  | none => ""
  | some extIndex =>
    if sepI < (extIndex : Int) then
      let fnStart : Nat := (sepI + 1).toNat
      if (List.range extIndex).any
          (fun j => fnStart ≤ j && cs.getD j '.' != '.') then
        String.mk (cs.drop extIndex)
      else ""
    else ""

/-- `os.path.basename`. -/
def basename (s : String) : String := ((s.splitOn "/").getLast?).getD s

/-- Python `str.endswith`: the suffix test on the character sequence. -/
def py_endswith (s suffix : String) : Bool := suffix.data.isSuffixOf s.data

/-- `VmsConnection._get_glance_displayname_and_type`. -/
def _get_glance_displayname_and_type (instance_ref : UploadInstance)
    (filename : String) : String × String :=
  let image_name := instance_ref.display_name
  if py_endswith filename ".gc" then (image_name, "Live-Image")
  else if py_endswith filename ".disk" then
    (image_name ++ "." ++ py_split_penult filename ++ ".disk", "Image")
  else
    (image_name ++ splitext_ext filename, "Image")

/-- `VmsConnection._friendly_upload`: create the image, upload the file, and
stamp `image_type` / `file_name` on its properties; returns the display name
and image id. -/
def _friendly_upload (st : ImgStore) (instance_ref : UploadInstance)
    (filename : String) : ImgStore × String × Nat :=
  match _get_glance_displayname_and_type instance_ref filename with
  | (image_name, image_type) =>
    match image_create st image_name instance_ref.uuid with
    | (st1, image_id) =>
      let properties := image_show_props st1 image_id
      let properties1 := tagSet (tagSet properties
        "image_type" (PyVal.str image_type))
        "file_name" (PyVal.str (basename filename))
      (image_update_props st1 image_id properties1, image_name, image_id)

/-- The `for blessed_file in blessed_files` loop of
`LibvirtConnection._upload_files`: uploads every file, remembers the id of
the last file ending in ".gc" as the descriptor, and collects the other
(name, id) pairs in order. -/
def upload_files_loop (st : ImgStore) (instance_ref : UploadInstance) :
    List String → ImgStore × List Nat × Option Nat × List (String × Nat)
  | [] => (st, [], none, [])
  | blessed_file :: rest =>
    match _friendly_upload st instance_ref blessed_file with
    | (st1, image_name, image_id) =>
      match upload_files_loop st1 instance_ref rest with
      | (st2, refs, dref, others) =>
        if py_endswith blessed_file ".gc" then
          (st2, image_id :: refs, some (dref.getD image_id), others)
        else
          (st2, image_id :: refs, dref, (image_name, image_id) :: others)

/-- `LibvirtConnection._upload_files`: upload every blessed file, then stamp
the descriptor's store record with `live_image`, `image_state: available`,
owner and source-instance metadata, the auxiliary image ids and the optional
policy template.  When no file ends in ".gc", `descriptor_ref` stays `None`
and the subsequent `image_service.show(context, None)` raises. -/
def _upload_files (st : ImgStore) (instance_ref : UploadInstance)
    (blessed_files : List String) (vms_policy_template : Option String) :
    Except Unit (ImgStore × List Nat) :=
  match upload_files_loop st instance_ref blessed_files with
  | (st1, refs, dref, others) =>
    match dref with
    | none => Except.error ()
    | some descriptor_ref =>
      let properties := image_show_props st1 descriptor_ref
      let properties1 :=
        tagSet (tagSet (tagSet (tagSet (tagSet (tagSet properties
          "live_image" (PyVal.bool true))
          "image_state" (PyVal.str "available"))
          "owner_id" (PyVal.str instance_ref.project_id))
          "live_image_source" (PyVal.str instance_ref.name))
          "instance_uuid" (PyVal.str instance_ref.uuid))
          "instance_type_id" (PyVal.int instance_ref.instance_type_id)
      let properties2 := others.foldl
        (fun ps q => tagSet ps ("live_image_data_" ++ q.1) (PyVal.int q.2))
        properties1
      let properties3 := match vms_policy_template with
        | some t => tagSet properties2 "vms_policy_template" (PyVal.str t)
        | none => properties2
      Except.ok (image_update_props st1 descriptor_ref properties3, refs)

/-- Number of store images whose `image_type` property is "Live-Image" (the
descriptor tag). -/
def countLive (st : ImgStore) : Nat :=
  st.images.countP
    (fun p => tagGet p.2.properties "image_type" == some (PyVal.str "Live-Image"))

/-- Image-store well-formedness: ids are below the next id to be handed out
and strictly increasing (every store reachable from `emptyStore` through
`image_create` satisfies this). -/
def storeWF (st : ImgStore) : Prop :=
  (∀ p ∈ st.images, p.1 < st.nextId)
  ∧ st.images.Pairwise (fun a b => a.1 < b.1)

/-! ## Concrete records for evaluating the theorems on closed inputs -/

def egActive : Instance :=
  { metadata := []
    vm_state := VmState.active
    deleted := false
    image_ref := "img"
    image_id := ""
    instance_type_id := 3
    memory_mb := 512
    vcpus := 1
    local_gb := 10
    display_name := "vm"
    display_description := "d"
    user_data := ""
    key_name := ""
    key_data := ""
    availability_zone := "az"
    os_type := "linux"
    user_id := "u"
    project_id := "p"
    host := some "h" }

def egTemplate : Instance :=
  { egActive with metadata := [("blessed_from", PyVal.str "7")],
                  vm_state := VmState.building }

def egClone (tid : Nat) : Instance :=
  { egActive with metadata := [("launched_from", PyVal.str (toString tid))] }

def egCtx : Context := { user_id := "u", project_id := "p" }

def egDB : DB := { instances := [(1, egActive)], nextId := 2 }

def egDBtpl : DB := { instances := [(1, egTemplate)], nextId := 2 }

def egDBdep : DB := { instances := [(1, egTemplate), (2, egClone 1)], nextId := 3 }

def egUpl : UploadInstance :=
  { display_name := "vm", uuid := "uu", name := "instance-1",
    project_id := "p", instance_type_id := 3 }


/-! ## Registry Coordinator: supporting lemmas -/

theorem alGet_nil [BEq κ] (k : κ) : alGet ([] : List (κ × α)) k = none := rfl

theorem alGet_alSet_self [BEq κ] [LawfulBEq κ] (m : List (κ × α)) (k : κ) (v : α) :
    alGet (alSet m k v) k = some v := by
  simp [alGet, alSet]

theorem alGet_filter_keyNe [BEq κ] [LawfulBEq κ] (t : List (κ × α)) (k k' : κ)
    (h : k' ≠ k) :
    alGet (t.filter (fun p => !(p.1 == k))) k' = alGet t k' := by
  induction t with
  | nil => rfl
  | cons a t ih =>
    by_cases ha : a.1 = k
    · have e1 : (!(a.1 == k)) = false := by simp [ha]
      have e2 : (a.1 == k') = false := by
        refine beq_eq_false_iff_ne.mpr ?_
        rw [ha]
        exact fun hk => h hk.symm
      simp [alGet, List.filter_cons, e1, e2, ih]
    · have e1 : (!(a.1 == k)) = true := by simp [ha]
      by_cases ha' : a.1 = k'
      · have e2 : (a.1 == k') = true := by simp [ha']
        simp [alGet, List.filter_cons, e1, e2]
      · have e2 : (a.1 == k') = false := by simp [ha']
        simp [alGet, List.filter_cons, e1, e2, ih]

theorem alGet_alSet_ne [BEq κ] [LawfulBEq κ] (m : List (κ × α)) (k k' : κ) (v : α)
    (h : k' ≠ k) : alGet (alSet m k v) k' = alGet m k' := by
  have hbeq : (k == k') = false := beq_eq_false_iff_ne.mpr (fun hk => h hk.symm)
  rw [show alGet (alSet m k v) k' = alGet (m.filter (fun p => !(p.1 == k))) k' by
    simp [alSet, alGet, hbeq]]
  exact alGet_filter_keyNe m k k' h

theorem alGet_append [BEq κ] (m₁ m₂ : List (κ × α)) (k : κ) :
    alGet (m₁ ++ m₂) k = (alGet m₁ k).or (alGet m₂ k) := by
  induction m₁ with
  | nil => simp [alGet]
  | cons a t ih =>
    by_cases ha : (a.1 == k) = true
    · simp [alGet, ha]
    · simp [alGet, ha, ih]

theorem alGet_isSome_of_mem [BEq κ] [LawfulBEq κ] (m : List (κ × α)) (p : κ × α)
    (h : p ∈ m) : (alGet m p.1).isSome = true := by
  induction m with
  | nil => cases h
  | cons a t ih =>
    by_cases ha : (a.1 == p.1) = true
    · simp [alGet, ha]
    · have hmem : p ∈ t := by
        rcases List.mem_cons.mp h with h' | h'
        · exfalso; subst h'; simp at ha
        · exact h'
      simp only [alGet, ha, if_false]
      simp [ha]
      exact ih hmem



theorem alGet_map_upd_self [BEq κ] [LawfulBEq κ] (m : List (κ × α)) (k : κ) (f : α → α) :
    alGet (m.map (fun p => if p.1 == k then (p.1, f p.2) else p)) k =
      (alGet m k).map f := by
  induction m with
  | nil => rfl
  | cons a t ih =>
    by_cases ha : a.1 = k
    · have e1 : (a.1 == k) = true := by simp [ha]
      simp [alGet, e1]
    · have e1 : (a.1 == k) = false := by simp [ha]
      simp [alGet, e1, ih]

theorem alGet_map_upd_ne [BEq κ] [LawfulBEq κ] (m : List (κ × α)) (k j : κ) (f : α → α)
    (h : j ≠ k) :
    alGet (m.map (fun p => if p.1 == k then (p.1, f p.2) else p)) j = alGet m j := by
  induction m with
  | nil => rfl
  | cons a t ih =>
    by_cases ha : a.1 = k
    · have e1 : (a.1 == k) = true := by simp [ha]
      have e2 : (a.1 == j) = false := by
        refine beq_eq_false_iff_ne.mpr ?_
        rw [ha]
        exact fun hh => h hh.symm
      simp [alGet, e1, e2, ih]
    · have e1 : (a.1 == k) = false := by simp [ha]
      by_cases haj : a.1 = j
      · have e2 : (a.1 == j) = true := by simp [haj]
        simp [alGet, e1, e2]
      · have e2 : (a.1 == j) = false := by simp [haj]
        simp [alGet, e1, e2, ih]

theorem alGet_none_of_keys_ne [BEq κ] [LawfulBEq κ] (m : List (κ × α)) (k : κ)
    (h : ∀ p ∈ m, p.1 ≠ k) : alGet m k = none := by
  induction m with
  | nil => rfl
  | cons a t ih =>
    have e : (a.1 == k) = false := by simp [h a (List.mem_cons_self a t)]
    simp only [alGet, List.find?, e]
    exact ih (fun p hp => h p (List.mem_cons_of_mem a hp))

theorem instance_get_update (db : DB) (iid j : Nat) (md : Tags) :
    instance_get (instance_metadata_update db iid md) j =
      (if j = iid then (instance_get db j).map (fun inst => { inst with metadata := md })
       else instance_get db j) := by
  unfold instance_get instance_metadata_update
  by_cases h : j = iid
  · rw [if_pos h, h]
    exact alGet_map_upd_self db.instances iid (fun inst => { inst with metadata := md })
  · rw [if_neg h]
    exact alGet_map_upd_ne db.instances iid j (fun inst => { inst with metadata := md }) h

theorem instance_get_create_old (db : DB) (inst : Instance) (j : Nat) (v : Instance)
    (h : instance_get db j = some v) :
    instance_get (instance_create db inst).1 j = some v := by
  simp only [instance_get, instance_create] at h ⊢
  rw [alGet_append, h]
  rfl

theorem instance_get_fresh (db : DB) (hWF : dbWF db) :
    instance_get db db.nextId = none := by
  unfold instance_get
  exact alGet_none_of_keys_ne _ _ (fun p hp => Nat.ne_of_lt (hWF p hp))

theorem instance_get_create_new (db : DB) (inst : Instance) (hWF : dbWF db) :
    instance_get (instance_create db inst).1 db.nextId = some inst := by
  unfold instance_get instance_create
  rw [alGet_append]
  have h0 : alGet db.instances db.nextId = none := instance_get_fresh db hWF
  unfold instance_get at h0
  rw [h0]
  simp [alGet]

theorem dbWF_update (db : DB) (iid : Nat) (md : Tags) (hWF : dbWF db) :
    dbWF (instance_metadata_update db iid md) := by
  intro p hp
  unfold instance_metadata_update at hp
  rcases List.mem_map.mp hp with ⟨q, hq, he⟩
  have := hWF q hq
  by_cases h : (q.1 == iid) = true
  · simp only [h, if_pos] at he
    subst he
    exact this
  · simp only [h] at he
    simp at he
    subst he
    exact this

theorem dbWF_create (db : DB) (inst : Instance) (hWF : dbWF db) :
    dbWF (instance_create db inst).1 := by
  intro p hp
  unfold instance_create at hp
  simp only at hp
  rcases List.mem_append.mp hp with h | h
  · exact Nat.lt_succ_of_lt (hWF p h)
  · simp at h
    subst h
    exact Nat.lt_succ_self _

theorem nextId_update (db : DB) (iid : Nat) (md : Tags) :
    (instance_metadata_update db iid md).nextId = db.nextId := rfl

/-- Characterization of a successful `bless_instance`: when the source
exists, is untagged and active, the call returns the fresh id, bumps the
source's `last_clone_num` to the next clone number, and creates exactly one
new record carrying `blessed_from` and the clone-number name suffix. -/
theorem bless_instance_ok (ctx : Context) (db : DB) (iid : Nat) (inst : Instance)
    (hWF : dbWF db)
    (hget : instance_get db iid = some inst)
    (hb : tagGet inst.metadata "blessed_from" = none)
    (hl : tagGet inst.metadata "launched_from" = none)
    (ha : inst.vm_state = VmState.active) :
    ∃ db' : DB,
      bless_instance ctx db iid = (db', Except.ok db.nextId)
      ∧ (∃ c : Int,
          c = (match tagGet inst.metadata "last_clone_num" with
               | some v => pyInt v
               | none => -1) + 1
          ∧ instance_get db' iid =
              some { inst with metadata := tagSet inst.metadata "last_clone_num" (PyVal.int c) }
          ∧ (∃ newRec : Instance,
              instance_get db' db.nextId = some newRec
              ∧ newRec.metadata = [("blessed_from", PyVal.str (toString iid))]
              ∧ newRec.display_name = inst.display_name ++ "-" ++ toString c
              ∧ newRec.vm_state = VmState.building
              ∧ newRec.deleted = false))
      ∧ db'.nextId = db.nextId + 1
      ∧ dbWF db'
      ∧ (∀ j, j ≠ iid → j ≠ db.nextId → instance_get db' j = instance_get db j)
      ∧ instance_get db db.nextId = none := by
  have hmd : instance_metadata_get db iid = inst.metadata := by
    unfold instance_metadata_get
    rw [hget]
  have hbF : _is_instance_blessed db iid = false := by
    unfold _is_instance_blessed
    rw [hmd, hb]
    rfl
  have hlF : _is_instance_launched db iid = false := by
    unfold _is_instance_launched
    rw [hmd, hl]
    rfl
  set c : Int := (match tagGet inst.metadata "last_clone_num" with
                  | some v => pyInt v
                  | none => -1) + 1 with hc
  set md' : Tags := tagSet inst.metadata "last_clone_num" (PyVal.int c) with hmd'
  set db₁ : DB := instance_metadata_update db iid md' with hdb₁
  have hnext : _next_clone_num db iid = (db₁, c) := by
    unfold _next_clone_num
    rw [hmd]
  have hget₁ : instance_get db₁ iid = some { inst with metadata := md' } := by
    rw [hdb₁, instance_get_update, if_pos rfl, hget]
    rfl
  have hWF₁ : dbWF db₁ := dbWF_update db iid md' hWF
  have hn₁ : db₁.nextId = db.nextId := rfl
  -- the record built by _copy_instance
  set newRec : Instance := copied_instance ctx inst iid (toString c) false with hnewRec
  set dbF : DB := (instance_create db₁ newRec).1 with hdbF
  have hcopy : _copy_instance ctx db₁ iid (toString c) false = (dbF, Except.ok db₁.nextId) := by
    unfold _copy_instance
    rw [hget₁]
    rfl
  have hbless : bless_instance ctx db iid = (dbF, Except.ok db₁.nextId) := by
    unfold bless_instance
    rw [hget]
    simp only [hbF, hlF, ha, ne_eq, Bool.false_eq_true, if_false, not_true_eq_false, ite_false]
    rw [hnext]
    exact hcopy
  refine ⟨dbF, by rw [hbless, hn₁], ?_, ?_, ?_, ?_, ?_⟩
  · refine ⟨c, hc, ?_, ?_⟩
    · rw [hdbF]
      exact instance_get_create_old db₁ newRec iid _ hget₁
    · refine ⟨newRec, ?_, rfl, rfl, rfl, rfl⟩
      rw [hdbF, show db.nextId = db₁.nextId from rfl]
      exact instance_get_create_new db₁ newRec hWF₁
  · rw [hdbF]
    rfl
  · rw [hdbF]
    exact dbWF_create db₁ newRec hWF₁
  · intro j hji hjn
    rw [hdbF]
    have hsplit : instance_get (instance_create db₁ newRec).1 j =
        (instance_get db₁ j).or (alGet [(db₁.nextId, newRec)] j) := by
      simp only [instance_get, instance_create]
      rw [alGet_append]
    have hj1 : instance_get db₁ j = instance_get db j := by
      rw [hdb₁, instance_get_update, if_neg hji]
    rw [hsplit, hj1]
    cases hcase : instance_get db j with
    | none =>
      have e : (db₁.nextId == j) = false := by
        rw [hn₁]
        exact beq_eq_false_iff_ne.mpr (fun hh => hjn hh.symm)
      simp [alGet, e]
    | some v => rfl
  · exact instance_get_fresh db hWF

theorem mem_of_alGet [BEq κ] [LawfulBEq κ] (m : List (κ × α)) (k : κ) (v : α)
    (h : alGet m k = some v) : (k, v) ∈ m := by
  induction m with
  | nil => cases h
  | cons a t ih =>
    by_cases ha : (a.1 == k) = true
    · simp only [alGet, ha, if_true] at h
      have hk : a.1 = k := by simpa using ha
      have hv : a.2 = v := by simpa using h
      rw [← hk, ← hv]
      exact List.mem_cons_self a t
    · simp only [alGet, ha, if_false] at h
      simp only [Bool.not_eq_true] at ha
      rw [if_neg (by simp [ha])] at h
      exact List.mem_cons_of_mem a (ih h)


theorem mutexTags_tagSet_clone (md : Tags) (v : PyVal) (h : mutexTags md) :
    mutexTags (tagSet md "last_clone_num" v) := by
  unfold mutexTags at h ⊢
  rw [show tagGet (tagSet md "last_clone_num" v) "blessed_from" = tagGet md "blessed_from" from
      alGet_alSet_ne md "last_clone_num" "blessed_from" v (by decide),
    show tagGet (tagSet md "last_clone_num" v) "launched_from" = tagGet md "launched_from" from
      alGet_alSet_ne md "last_clone_num" "launched_from" v (by decide)]
  exact h

theorem metadata_get_mutex (db : DB) (iid : Nat) (hdb : dbMutex db) :
    mutexTags (instance_metadata_get db iid) := by
  unfold instance_metadata_get
  cases hget : instance_get db iid with
  | none => intro hcon; simp [tagGet, alGet] at hcon
  | some inst =>
    exact hdb (iid, inst) (mem_of_alGet db.instances iid inst hget)

theorem dbMutex_update (db : DB) (iid : Nat) (md : Tags) (hdb : dbMutex db)
    (hmd : mutexTags md) : dbMutex (instance_metadata_update db iid md) := by
  intro p hp
  unfold instance_metadata_update at hp
  rcases List.mem_map.mp hp with ⟨q, hq, he⟩
  by_cases h : (q.1 == iid) = true
  · simp only [h, if_pos] at he
    rw [← he]
    exact hmd
  · simp only [h] at he
    simp at he
    rw [← he]
    exact hdb q hq

theorem dbMutex_create (db : DB) (inst : Instance) (hdb : dbMutex db)
    (hinst : mutexTags inst.metadata) : dbMutex (instance_create db inst).1 := by
  intro p hp
  unfold instance_create at hp
  simp only at hp
  rcases List.mem_append.mp hp with h | h
  · exact hdb p h
  · simp at h
    rw [h]
    exact hinst

/-- Characterization of `_copy_instance` on an existing source: a single new
record is appended, tagged with exactly one of the two relationship tags
according to the `launch` flag, and every other row is untouched. -/
theorem copy_instance_ok (ctx : Context) (db : DB) (iid : Nat) (inst : Instance)
    (sfx : String) (lch : Bool) (hWF : dbWF db)
    (hget : instance_get db iid = some inst) :
    ∃ db' : DB, ∃ newRec : Instance,
      _copy_instance ctx db iid sfx lch = (db', Except.ok db.nextId)
      ∧ instance_get db' db.nextId = some newRec
      ∧ newRec.metadata = (if lch then [("launched_from", PyVal.str (toString iid))]
                           else [("blessed_from", PyVal.str (toString iid))])
      ∧ newRec.vm_state = VmState.building
      ∧ newRec.deleted = false
      ∧ newRec.display_name = inst.display_name ++ "-" ++ sfx
      ∧ db'.instances.length = db.instances.length + 1
      ∧ db'.nextId = db.nextId + 1
      ∧ dbWF db'
      ∧ (∀ j, j ≠ db.nextId → instance_get db' j = instance_get db j)
      ∧ instance_get db db.nextId = none := by
  set newRec : Instance := copied_instance ctx inst iid sfx lch with hnewRec
  have hcopy : _copy_instance ctx db iid sfx lch =
      ((instance_create db newRec).1, Except.ok db.nextId) := by
    unfold _copy_instance
    rw [hget]
    rfl
  refine ⟨(instance_create db newRec).1, newRec, hcopy, ?_, rfl, rfl, rfl, rfl, ?_, rfl,
    dbWF_create db newRec hWF, ?_, instance_get_fresh db hWF⟩
  · exact instance_get_create_new db newRec hWF
  · unfold instance_create
    simp
  · intro j hj
    have hsplit : instance_get (instance_create db newRec).1 j =
        (instance_get db j).or (alGet [(db.nextId, newRec)] j) := by
      simp only [instance_get, instance_create]
      rw [alGet_append]
    rw [hsplit]
    cases hcase : instance_get db j with
    | none =>
      have e : (db.nextId == j) = false :=
        beq_eq_false_iff_ne.mpr (fun hh => hj hh.symm)
      simp [alGet, e]
    | some v => rfl

theorem bool_false_of_not_true {b : Bool} (h : ¬(b = true)) : b = false := by
  cases b
  · rfl
  · exact absurd rfl h

theorem bless_eq_blessed (ctx : Context) (db : DB) (iid : Nat) (inst : Instance)
    (hget : instance_get db iid = some inst)
    (hb : _is_instance_blessed db iid = true) :
    bless_instance ctx db iid = (db, Except.error GcError.alreadyBlessed) := by
  unfold bless_instance
  rw [hget]
  simp [hb]

theorem bless_eq_launched (ctx : Context) (db : DB) (iid : Nat) (inst : Instance)
    (hget : instance_get db iid = some inst)
    (hb : _is_instance_blessed db iid = false)
    (hl : _is_instance_launched db iid = true) :
    bless_instance ctx db iid = (db, Except.error GcError.alreadyLaunched) := by
  unfold bless_instance
  rw [hget]
  simp [hb, hl]

theorem bless_eq_notActive (ctx : Context) (db : DB) (iid : Nat) (inst : Instance)
    (hget : instance_get db iid = some inst)
    (hb : _is_instance_blessed db iid = false)
    (hl : _is_instance_launched db iid = false)
    (hv : inst.vm_state ≠ VmState.active) :
    bless_instance ctx db iid = (db, Except.error GcError.notActive) := by
  unfold bless_instance
  rw [hget]
  simp [hb, hl, hv]

theorem bless_eq_ok_shape (ctx : Context) (db : DB) (iid : Nat) (inst : Instance)
    (hget : instance_get db iid = some inst)
    (hb : _is_instance_blessed db iid = false)
    (hl : _is_instance_launched db iid = false)
    (hv : inst.vm_state = VmState.active) :
    bless_instance ctx db iid =
      _copy_instance ctx (_next_clone_num db iid).1 iid
        (toString (_next_clone_num db iid).2) false := by
  unfold bless_instance
  rw [hget]
  simp [hb, hl, hv]

theorem launch_eq_notFound (ctx : Context) (q : Bool) (db : DB) (iid : Nat)
    (ps : LaunchParams) (hget : instance_get db iid = none) :
    launch_instance ctx q db iid ps = (db, Except.error GcError.instanceNotFound) := by
  unfold launch_instance
  rw [hget]

theorem launch_eq_quota (ctx : Context) (db : DB) (iid : Nat) (inst : Instance)
    (ps : LaunchParams) (hget : instance_get db iid = some inst) :
    launch_instance ctx false db iid ps = (db, Except.error GcError.quotaExceeded) := by
  unfold launch_instance
  rw [hget]
  rfl

theorem launch_eq_notBlessed (ctx : Context) (db : DB) (iid : Nat) (inst : Instance)
    (ps : LaunchParams) (hget : instance_get db iid = some inst)
    (hnb : _is_instance_blessed db iid = false) :
    launch_instance ctx true db iid ps = (db, Except.error GcError.notBlessed) := by
  unfold launch_instance
  rw [hget]
  simp [hnb]

theorem launch_eq_blessed (ctx : Context) (db : DB) (iid : Nat) (inst : Instance)
    (ps : LaunchParams) (hget : instance_get db iid = some inst)
    (hb : _is_instance_blessed db iid = true) :
    launch_instance ctx true db iid ps = _copy_instance ctx db iid "clone" true := by
  unfold launch_instance
  rw [hget]
  simp [hb]

theorem discard_instance_fst (db : DB) (iid : Nat) : (discard_instance db iid).1 = db := by
  unfold discard_instance
  split
  · rfl
  · split <;> rfl

theorem mutexTags_copied (ctx : Context) (inst : Instance) (iid : Nat) (sfx : String)
    (lch : Bool) : mutexTags (copied_instance ctx inst iid sfx lch).metadata := by
  have e1 : (("launched_from" : String) == "blessed_from") = false := by decide
  have e2 : (("blessed_from" : String) == "launched_from") = false := by decide
  cases lch with
  | false =>
    intro hcon
    have h2 := hcon.2
    simp [copied_instance, tagGet, alGet, e2] at h2
  | true =>
    intro hcon
    have h1 := hcon.1
    simp [copied_instance, tagGet, alGet, e1] at h1

theorem dbMutex_copy (ctx : Context) (db : DB) (iid : Nat) (sfx : String) (lch : Bool)
    (hdb : dbMutex db) : dbMutex (_copy_instance ctx db iid sfx lch).1 := by
  unfold _copy_instance
  cases hget : instance_get db iid with
  | none => exact hdb
  | some inst => exact dbMutex_create db _ hdb (mutexTags_copied ctx inst iid sfx lch)

theorem dbMutex_next_clone (db : DB) (iid : Nat) (hdb : dbMutex db) :
    dbMutex (_next_clone_num db iid).1 :=
  dbMutex_update db iid _ hdb
    (mutexTags_tagSet_clone _ _ (metadata_get_mutex db iid hdb))

theorem dbMutex_bless (ctx : Context) (db : DB) (iid : Nat) (hdb : dbMutex db) :
    dbMutex (bless_instance ctx db iid).1 := by
  cases hget : instance_get db iid with
  | none =>
    have h : bless_instance ctx db iid = (db, Except.error GcError.instanceNotFound) := by
      unfold bless_instance
      rw [hget]
    rw [h]
    exact hdb
  | some inst =>
    by_cases hb : _is_instance_blessed db iid = true
    · rw [bless_eq_blessed ctx db iid inst hget hb]
      exact hdb
    · have hbF := bool_false_of_not_true hb
      by_cases hl : _is_instance_launched db iid = true
      · rw [bless_eq_launched ctx db iid inst hget hbF hl]
        exact hdb
      · have hlF := bool_false_of_not_true hl
        by_cases hv : inst.vm_state = VmState.active
        · rw [bless_eq_ok_shape ctx db iid inst hget hbF hlF hv]
          exact dbMutex_copy ctx _ iid _ false (dbMutex_next_clone db iid hdb)
        · rw [bless_eq_notActive ctx db iid inst hget hbF hlF hv]
          exact hdb

theorem dbMutex_launch (ctx : Context) (q : Bool) (db : DB) (iid : Nat)
    (ps : LaunchParams) (hdb : dbMutex db) :
    dbMutex (launch_instance ctx q db iid ps).1 := by
  cases hget : instance_get db iid with
  | none =>
    rw [launch_eq_notFound ctx q db iid ps hget]
    exact hdb
  | some inst =>
    cases q with
    | false =>
      rw [launch_eq_quota ctx db iid inst ps hget]
      exact hdb
    | true =>
      by_cases hb : _is_instance_blessed db iid = true
      · rw [launch_eq_blessed ctx db iid inst ps hget hb]
        exact dbMutex_copy ctx db iid "clone" true hdb
      · rw [launch_eq_notBlessed ctx db iid inst ps hget (bool_false_of_not_true hb)]
        exact hdb

/-- Claim C1: the tags `blessed_from` and `launched_from` are never both
present on any record: every Registry Coordinator operation preserves the
database-wide mutual-exclusion invariant, `_copy_instance`'s new record
carries exactly one of the two tags (chosen by its `launch` flag), and
`bless_instance` refuses (with AlreadyBlessed/AlreadyLaunched, leaving the
registry unchanged) any source already carrying either tag. -/
theorem c1_blessed_launched_mutex (ctx : Context) (db : DB) (iid : Nat) (q : Bool)
    (ps : LaunchParams) (sfx : String) (lch : Bool) (hdb : dbMutex db) :
    dbMutex (_copy_instance ctx db iid sfx lch).1
    ∧ dbMutex (bless_instance ctx db iid).1
    ∧ dbMutex (launch_instance ctx q db iid ps).1
    ∧ dbMutex (discard_instance db iid).1
    ∧ (∀ inst : Instance,
        (tagGet (copied_instance ctx inst iid sfx lch).metadata "launched_from").isSome = lch
        ∧ (tagGet (copied_instance ctx inst iid sfx lch).metadata "blessed_from").isSome = !lch)
    ∧ (∀ inst : Instance, instance_get db iid = some inst →
        ((tagGet inst.metadata "blessed_from").isSome = true
         ∨ (tagGet inst.metadata "launched_from").isSome = true) →
        bless_instance ctx db iid = (db, Except.error GcError.alreadyBlessed)
        ∨ bless_instance ctx db iid = (db, Except.error GcError.alreadyLaunched)) := by
  refine ⟨dbMutex_copy ctx db iid sfx lch hdb, dbMutex_bless ctx db iid hdb,
    dbMutex_launch ctx q db iid ps hdb, ?_, ?_, ?_⟩
  · rw [discard_instance_fst db iid]
    exact hdb
  · intro inst
    have e1 : (("launched_from" : String) == "blessed_from") = false := by decide
    have e2 : (("blessed_from" : String) == "launched_from") = false := by decide
    cases lch with
    | false =>
      constructor
      · simp [copied_instance, tagGet, alGet, e2]
      · simp [copied_instance, tagGet, alGet]
    | true =>
      constructor
      · simp [copied_instance, tagGet, alGet]
      · simp [copied_instance, tagGet, alGet, e1]
  · intro inst hget htag
    have hmd : instance_metadata_get db iid = inst.metadata := by
      unfold instance_metadata_get
      rw [hget]
    by_cases hb : _is_instance_blessed db iid = true
    · exact Or.inl (bless_eq_blessed ctx db iid inst hget hb)
    · have hbF := bool_false_of_not_true hb
      have hl : _is_instance_launched db iid = true := by
        unfold _is_instance_launched
        rw [hmd]
        rcases htag with h | h
        · exfalso
          apply hb
          unfold _is_instance_blessed
          rw [hmd]
          exact h
        · exact h
      exact Or.inr (bless_eq_launched ctx db iid inst hget hbF hl)

theorem c1_witness :
    dbMutex egDB
    ∧ dbMutex (bless_instance egCtx egDB 1).1
    ∧ dbMutex (launch_instance egCtx true egDB 1 { num_instances := none, name := none }).1 := by
  have hdb : dbMutex egDB := by
    unfold dbMutex mutexTags
    decide
  have h := c1_blessed_launched_mutex egCtx egDB 1 true
    { num_instances := none, name := none } "0" false hdb
  exact ⟨hdb, h.2.1, h.2.2.1⟩

/-- Claim C2: on a template (a source carrying `blessed_from`), discard
fails with HasDependents exactly when some non-deleted record carries
`launched_from = <templateId>`; when no such record exists the discard is
dispatched (`ok`, registry unchanged).  Deleted dependents are excluded by
the `deleted: False` filter. -/
theorem c2_discard_has_dependents (db : DB) (iid : Nat)
    (hb : _is_instance_blessed db iid = true) :
    ((discard_instance db iid).2 = Except.error GcError.hasDependents ↔
      ∃ p ∈ db.instances,
        tagGet p.2.metadata "launched_from" = some (PyVal.str (toString iid))
        ∧ p.2.deleted = false)
    ∧ ((¬∃ p ∈ db.instances,
          tagGet p.2.metadata "launched_from" = some (PyVal.str (toString iid))
          ∧ p.2.deleted = false) →
        discard_instance db iid = (db, Except.ok ())) := by
  have hkey : (0 < (list_launched_instances db iid).length) ↔
      ∃ p ∈ db.instances,
        tagGet p.2.metadata "launched_from" = some (PyVal.str (toString iid))
        ∧ p.2.deleted = false := by
    constructor
    · intro hlen
      obtain ⟨p, hp⟩ := List.exists_mem_of_length_pos hlen
      have hmf := List.mem_filter.mp hp
      refine ⟨p, hmf.1, ?_⟩
      have hb2 := hmf.2
      simp only [Bool.and_eq_true, beq_iff_eq] at hb2
      exact hb2
    · rintro ⟨p, hpmem, h1, h2⟩
      have hmemf : p ∈ list_launched_instances db iid := by
        apply List.mem_filter.mpr
        refine ⟨hpmem, ?_⟩
        simp [h1, h2]
      exact List.length_pos.mpr (List.ne_nil_of_mem hmemf)
  have hd1 : ∀ (_ : 0 < (list_launched_instances db iid).length),
      discard_instance db iid = (db, Except.error GcError.hasDependents) := by
    intro h
    unfold discard_instance
    simp [hb, h]
  have hd2 : ∀ (_ : ¬(0 < (list_launched_instances db iid).length)),
      discard_instance db iid = (db, Except.ok ()) := by
    intro h
    unfold discard_instance
    simp [hb, h]
  refine ⟨⟨fun he => ?_, fun hex => ?_⟩, fun hnex => ?_⟩
  · apply hkey.mp
    by_contra hlen
    rw [hd2 hlen] at he
    simp at he
  · rw [hd1 (hkey.mpr hex)]
  · exact hd2 (fun h => hnex (hkey.mp h))

theorem c2_witness :
    (discard_instance egDBdep 1).2 = Except.error GcError.hasDependents
    ∧ discard_instance egDBtpl 1 = (egDBtpl, Except.ok ()) := by
  constructor
  · exact (c2_discard_has_dependents egDBdep 1 (by decide)).1.mpr
      ⟨(2, egClone 1), by decide, by decide, by decide⟩
  · exact (c2_discard_has_dependents egDBtpl 1 (by decide)).2 (by decide)

/-- Claim C5: launching from a source that exists but does not carry
`blessed_from` fails with NotBlessed and leaves the registry unchanged
(no record is created); the quota check has passed. -/
theorem c5_launch_not_blessed (ctx : Context) (db : DB) (iid : Nat) (inst : Instance)
    (ps : LaunchParams) (hget : instance_get db iid = some inst)
    (hnb : _is_instance_blessed db iid = false) :
    launch_instance ctx true db iid ps = (db, Except.error GcError.notBlessed) := by
  unfold launch_instance
  rw [hget]
  simp [hnb]

theorem c5_witness :
    launch_instance egCtx true egDB 1 { num_instances := none, name := none }
      = (egDB, Except.error GcError.notBlessed) :=
  c5_launch_not_blessed egCtx egDB 1 egActive
    { num_instances := none, name := none } (by decide) (by decide)

/-- Claim C10: on a source whose tag map has no `last_clone_num` key, the
counter defaults to -1 and is incremented before use, so the first bless
allocates clone-sequence number 0 and persists `last_clone_num = 0` into the
source's tag map. -/
theorem c10_first_clone_num (db : DB) (iid : Nat) (inst : Instance)
    (hget : instance_get db iid = some inst)
    (h : tagGet inst.metadata "last_clone_num" = none) :
    (_next_clone_num db iid).2 = 0
    ∧ tagGet (instance_metadata_get (_next_clone_num db iid).1 iid) "last_clone_num"
        = some (PyVal.int 0) := by
  have hmd : instance_metadata_get db iid = inst.metadata := by
    unfold instance_metadata_get
    rw [hget]
  have hv : ((-1 : Int) + 1) = 0 := by decide
  have h2 : (_next_clone_num db iid).2 = 0 := by
    unfold _next_clone_num
    simp only [hmd, h, hv]
  have hfst : (_next_clone_num db iid).1 =
      instance_metadata_update db iid
        (tagSet inst.metadata "last_clone_num" (PyVal.int 0)) := by
    unfold _next_clone_num
    simp only [hmd, h, hv]
  refine ⟨h2, ?_⟩
  rw [hfst]
  have hgu : instance_get
      (instance_metadata_update db iid
        (tagSet inst.metadata "last_clone_num" (PyVal.int 0))) iid =
      some { inst with metadata := tagSet inst.metadata "last_clone_num" (PyVal.int 0) } := by
    rw [instance_get_update, if_pos rfl, hget]
    rfl
  unfold instance_metadata_get
  rw [hgu]
  exact alGet_alSet_self inst.metadata "last_clone_num" (PyVal.int 0)

theorem c10_witness :
    (_next_clone_num egDB 1).2 = 0
    ∧ tagGet (instance_metadata_get (_next_clone_num egDB 1).1 1) "last_clone_num"
        = some (PyVal.int 0) :=
  c10_first_clone_num egDB 1 egActive (by decide) (by decide)

/-- Claim C3: `bless_instance` validates in order — AlreadyBlessed if the
source carries `blessed_from`, AlreadyLaunched if it carries
`launched_from`, NotActive if its vm_state is not ACTIVE — each failure
leaving the registry unchanged (no record created, all validation before the
worker dispatch); when none of these hold it allocates the next clone
number, creates a fresh record tagged `blessed_from = <sourceId>` named with
the clone number, and returns the refreshed record's id. -/
theorem c3_bless_validation (ctx : Context) (db : DB) (iid : Nat) (inst : Instance)
    (hWF : dbWF db) (hget : instance_get db iid = some inst) :
    ((tagGet inst.metadata "blessed_from").isSome = true →
      bless_instance ctx db iid = (db, Except.error GcError.alreadyBlessed))
    ∧ (tagGet inst.metadata "blessed_from" = none →
        (tagGet inst.metadata "launched_from").isSome = true →
        bless_instance ctx db iid = (db, Except.error GcError.alreadyLaunched))
    ∧ (tagGet inst.metadata "blessed_from" = none →
        tagGet inst.metadata "launched_from" = none →
        inst.vm_state ≠ VmState.active →
        bless_instance ctx db iid = (db, Except.error GcError.notActive))
    ∧ (tagGet inst.metadata "blessed_from" = none →
        tagGet inst.metadata "launched_from" = none →
        inst.vm_state = VmState.active →
        ∃ db' : DB, ∃ newRec : Instance,
          bless_instance ctx db iid = (db', Except.ok db.nextId)
          ∧ instance_get db db.nextId = none
          ∧ instance_get db' db.nextId = some newRec
          ∧ newRec.metadata = [("blessed_from", PyVal.str (toString iid))]
          ∧ newRec.display_name =
              inst.display_name ++ "-" ++ toString ((_next_clone_num db iid).2)
          ∧ tagGet (instance_metadata_get db' iid) "last_clone_num"
              = some (PyVal.int ((_next_clone_num db iid).2))) := by
  have hmd : instance_metadata_get db iid = inst.metadata := by
    unfold instance_metadata_get
    rw [hget]
  refine ⟨?_, ?_, ?_, ?_⟩
  · intro hbS
    refine bless_eq_blessed ctx db iid inst hget ?_
    unfold _is_instance_blessed
    rw [hmd]
    exact hbS
  · intro hb hlS
    refine bless_eq_launched ctx db iid inst hget ?_ ?_
    · unfold _is_instance_blessed
      rw [hmd, hb]
      rfl
    · unfold _is_instance_launched
      rw [hmd]
      exact hlS
  · intro hb hl hv
    refine bless_eq_notActive ctx db iid inst hget ?_ ?_ hv
    · unfold _is_instance_blessed
      rw [hmd, hb]
      rfl
    · unfold _is_instance_launched
      rw [hmd, hl]
      rfl
  · intro hb hl hv
    obtain ⟨db', h1, ⟨c, hc, hsrc, ⟨newRec, hnr, hnrmd, hnrdn, _, _⟩⟩, _, _, _, hfresh⟩ :=
      bless_instance_ok ctx db iid inst hWF hget hb hl hv
    have hc2 : (_next_clone_num db iid).2 = c := by
      unfold _next_clone_num
      simp only [hmd]
      rw [hc]
    refine ⟨db', newRec, h1, hfresh, hnr, hnrmd, ?_, ?_⟩
    · rw [hc2]
      exact hnrdn
    · unfold instance_metadata_get
      rw [hsrc, hc2]
      exact alGet_alSet_self inst.metadata "last_clone_num" (PyVal.int c)

theorem c3_witness :
    bless_instance egCtx egDBtpl 1 = (egDBtpl, Except.error GcError.alreadyBlessed) :=
  (c3_bless_validation egCtx egDBtpl 1 egTemplate (by unfold dbWF; decide) (by decide)).1
    (by decide)

/-- Claim C6: two successive successful blesses of the same active,
untagged source both succeed, create records under two distinct fresh ids
(both tagged `blessed_from = <sourceId>`, so two distinct templates), and
assign strictly increasing clone-sequence numbers: the source's
`last_clone_num` tag is read, incremented and written back by each bless,
so the second number is the first plus one. -/
theorem c6_bless_twice (ctx : Context) (db : DB) (iid : Nat) (inst : Instance)
    (hWF : dbWF db) (hget : instance_get db iid = some inst)
    (hb : tagGet inst.metadata "blessed_from" = none)
    (hl : tagGet inst.metadata "launched_from" = none)
    (ha : inst.vm_state = VmState.active) :
    ∃ db₁ db₂ : DB, ∃ id₁ id₂ : Nat, ∃ c₁ c₂ : Int,
      bless_instance ctx db iid = (db₁, Except.ok id₁)
      ∧ bless_instance ctx db₁ iid = (db₂, Except.ok id₂)
      ∧ id₁ ≠ id₂
      ∧ (∃ r₁ : Instance, instance_get db₂ id₁ = some r₁
          ∧ r₁.metadata = [("blessed_from", PyVal.str (toString iid))])
      ∧ (∃ r₂ : Instance, instance_get db₂ id₂ = some r₂
          ∧ r₂.metadata = [("blessed_from", PyVal.str (toString iid))])
      ∧ tagGet (instance_metadata_get db₁ iid) "last_clone_num" = some (PyVal.int c₁)
      ∧ tagGet (instance_metadata_get db₂ iid) "last_clone_num" = some (PyVal.int c₂)
      ∧ c₂ = c₁ + 1
      ∧ c₁ < c₂ := by
  obtain ⟨db₁, h1, ⟨c₁, hc₁, hsrc₁, ⟨r₁, hr₁get, hr₁md, _, _, _⟩⟩, hn₁, hWF₁, hoth₁, hfresh₁⟩ :=
    bless_instance_ok ctx db iid inst hWF hget hb hl ha
  have hne1 : (("last_clone_num" : String) : String) ≠ "blessed_from" := by decide
  have hne2 : (("last_clone_num" : String) : String) ≠ "launched_from" := by decide
  have hb₂ : tagGet (tagSet inst.metadata "last_clone_num" (PyVal.int c₁)) "blessed_from"
      = none := by
    rw [show tagGet (tagSet inst.metadata "last_clone_num" (PyVal.int c₁)) "blessed_from"
          = tagGet inst.metadata "blessed_from" from
        alGet_alSet_ne inst.metadata "last_clone_num" "blessed_from" (PyVal.int c₁)
          (by decide)]
    exact hb
  have hl₂ : tagGet (tagSet inst.metadata "last_clone_num" (PyVal.int c₁)) "launched_from"
      = none := by
    rw [show tagGet (tagSet inst.metadata "last_clone_num" (PyVal.int c₁)) "launched_from"
          = tagGet inst.metadata "launched_from" from
        alGet_alSet_ne inst.metadata "last_clone_num" "launched_from" (PyVal.int c₁)
          (by decide)]
    exact hl
  obtain ⟨db₂, h2, ⟨c₂, hc₂, hsrc₂, ⟨r₂, hr₂get, hr₂md, _, _, _⟩⟩, hn₂, hWF₂, hoth₂, hfresh₂⟩ :=
    bless_instance_ok ctx db₁ iid
      { inst with metadata := tagSet inst.metadata "last_clone_num" (PyVal.int c₁) }
      hWF₁ hsrc₁ hb₂ hl₂ ha
  have htag₁ : tagGet (tagSet inst.metadata "last_clone_num" (PyVal.int c₁)) "last_clone_num"
      = some (PyVal.int c₁) := alGet_alSet_self inst.metadata "last_clone_num" (PyVal.int c₁)
  have hcc : c₂ = c₁ + 1 := by
    rw [hc₂, htag₁]
    rfl
  -- the source id is an existing row, hence below both fresh ids
  have hiid_lt : iid < db.nextId := hWF (iid, inst) (mem_of_alGet db.instances iid inst hget)
  have hid1_ne_iid : db.nextId ≠ iid := fun h => absurd (h ▸ hiid_lt) (lt_irrefl _)
  have hid_ne : db.nextId ≠ db₁.nextId := by
    rw [hn₁]
    exact Nat.ne_of_lt (Nat.lt_succ_self _)
  refine ⟨db₁, db₂, db.nextId, db₁.nextId, c₁, c₂, h1, h2, hid_ne, ⟨r₁, ?_, hr₁md⟩,
    ⟨r₂, hr₂get, hr₂md⟩, ?_, ?_, hcc, by rw [hcc]; exact lt_add_one c₁⟩
  · rw [hoth₂ db.nextId hid1_ne_iid hid_ne]
    exact hr₁get
  · unfold instance_metadata_get
    rw [hsrc₁]
    exact htag₁
  · unfold instance_metadata_get
    rw [hsrc₂]
    exact alGet_alSet_self _ "last_clone_num" (PyVal.int c₂)

theorem c6_witness :
    ∃ db₁ db₂ : DB, ∃ id₁ id₂ : Nat, ∃ c₁ c₂ : Int,
      bless_instance egCtx egDB 1 = (db₁, Except.ok id₁)
      ∧ bless_instance egCtx db₁ 1 = (db₂, Except.ok id₂)
      ∧ id₁ ≠ id₂
      ∧ (∃ r₁ : Instance, instance_get db₂ id₁ = some r₁
          ∧ r₁.metadata = [("blessed_from", PyVal.str (toString 1))])
      ∧ (∃ r₂ : Instance, instance_get db₂ id₂ = some r₂
          ∧ r₂.metadata = [("blessed_from", PyVal.str (toString 1))])
      ∧ tagGet (instance_metadata_get db₁ 1) "last_clone_num" = some (PyVal.int c₁)
      ∧ tagGet (instance_metadata_get db₂ 1) "last_clone_num" = some (PyVal.int c₂)
      ∧ c₂ = c₁ + 1
      ∧ c₁ < c₂ :=
  c6_bless_twice egCtx egDB 1 egActive (by unfold dbWF; decide) (by decide) (by decide)
    (by decide) (by decide)

/-- Claim C4, counterexample: one `launch_instance` call on a template with
`num_instances = 2` in its params succeeds but creates exactly one record
tagged `launched_from` — not two — because the coordinator never reads the
params; it forwards them to the scheduler cast. -/
theorem c4_counterexample :
    (launch_instance egCtx true egDBtpl 1 { num_instances := some 2, name := none }).2
      = Except.ok 2
    ∧ (list_launched_instances
        (launch_instance egCtx true egDBtpl 1 { num_instances := some 2, name := none }).1
        1).length = 1
    ∧ (list_launched_instances
        (launch_instance egCtx true egDBtpl 1 { num_instances := some 2, name := none }).1
        1).length ≠ 2 :=
  ⟨rfl, rfl, by decide⟩

/-- Claim C4 (amended): a single `launch_instance` call on a template
creates exactly one launched-instance record tagged
`launched_from = <templateId>`; the `num_instances` entry of `params` (and
every other entry) is ignored by the coordinator — the result is identical
for any two params — so N records require N calls, and no launch index is
assigned by this code. -/
theorem c4_launch_single (ctx : Context) (db : DB) (iid : Nat) (inst : Instance)
    (ps ps' : LaunchParams) (hWF : dbWF db)
    (hget : instance_get db iid = some inst)
    (hb : _is_instance_blessed db iid = true) :
    launch_instance ctx true db iid ps = launch_instance ctx true db iid ps'
    ∧ ∃ db' : DB, ∃ newRec : Instance,
        launch_instance ctx true db iid ps = (db', Except.ok db.nextId)
        ∧ instance_get db db.nextId = none
        ∧ instance_get db' db.nextId = some newRec
        ∧ newRec.metadata = [("launched_from", PyVal.str (toString iid))]
        ∧ db'.instances.length = db.instances.length + 1
        ∧ (∀ j, j ≠ db.nextId → instance_get db' j = instance_get db j) := by
  constructor
  · rw [launch_eq_blessed ctx db iid inst ps hget hb,
      launch_eq_blessed ctx db iid inst ps' hget hb]
  · obtain ⟨db', newRec, hcopy, hgetNew, hmdIf, _, _, _, hlen, _, _, hoth, hfresh⟩ :=
      copy_instance_ok ctx db iid inst "clone" true hWF hget
    refine ⟨db', newRec, ?_, hfresh, hgetNew, ?_, hlen, hoth⟩
    · rw [launch_eq_blessed ctx db iid inst ps hget hb]
      exact hcopy
    · rw [hmdIf]
      rfl

theorem c4_witness :
    launch_instance egCtx true egDBtpl 1 { num_instances := some 5, name := none }
      = launch_instance egCtx true egDBtpl 1 { num_instances := none, name := none } :=
  (c4_launch_single egCtx egDBtpl 1 egTemplate
    { num_instances := some 5, name := none }
    { num_instances := none, name := none } (by unfold dbWF; decide) (by decide)
    (by decide)).1

theorem alGet_filter_self [BEq κ] [LawfulBEq κ] (m : List (κ × α)) (k : κ) :
    alGet (m.filter (fun p => !(p.1 == k))) k = none := by
  induction m with
  | nil => rfl
  | cons a t ih =>
    by_cases ha : a.1 = k
    · have e1 : (!(a.1 == k)) = false := by simp [ha]
      simp [List.filter_cons, e1, ih]
    · have e1 : (!(a.1 == k)) = true := by simp [ha]
      have e2 : (a.1 == k) = false := by simp [ha]
      simp [alGet, List.filter_cons, e1, e2, ih]

theorem fsGet_fsUnlink_self (fs : FS) (p : String) : fsGet (fsUnlink fs p) p = none :=
  alGet_filter_self fs p

theorem fsGet_fsUnlink_ne (fs : FS) (p q : String) (h : q ≠ p) :
    fsGet (fsUnlink fs p) q = fsGet fs q :=
  alGet_filter_keyNe fs p q h

theorem fsGet_fsSet_self (fs : FS) (p : String) (f : FileRec) :
    fsGet (fsSet fs p f) p = some f :=
  alGet_alSet_self fs p f

theorem fsGet_fsSet_ne (fs : FS) (p q : String) (f : FileRec) (h : q ≠ p) :
    fsGet (fsSet fs p f) q = fsGet fs q :=
  alGet_alSet_ne fs p q f h

/-- Claim C7: in `pre_launch`'s artifact fetch, if any step between creating
the temporary file and the final rename fails (close, download, chown,
chmod), the temporary file is removed, the original error is re-raised and
the target cache path is left exactly as it was; only when every step
succeeds does the target change, and then it holds the fully written file
(downloaded content, openstack owner/group, mode 0644) installed by the
rename, with the temporary file gone.  Paths other than the temporary file
and the target are never touched. -/
theorem c7_fetch_atomic (env : FetchEnv) (uid gid : Nat) (fs : FS)
    (temp target : String) (content : Nat) (hne : temp ≠ target) :
    ((env.close_ok = false ∨ env.download_ok = false ∨ env.chown_ok = false
        ∨ env.chmod_ok = false) →
      ((fetch_image env uid gid fs temp target content).2.isSome = true
        ∧ fsGet (fetch_image env uid gid fs temp target content).1 temp = none
        ∧ fsGet (fetch_image env uid gid fs temp target content).1 target
            = fsGet fs target))
    ∧ (env.close_ok = true → env.download_ok = true → env.chown_ok = true →
        env.chmod_ok = true →
        ((fetch_image env uid gid fs temp target content).2 = none
          ∧ fsGet (fetch_image env uid gid fs temp target content).1 temp = none
          ∧ fsGet (fetch_image env uid gid fs temp target content).1 target
              = some { content := content, owner := uid, group := gid, mode := 0o644 }))
    ∧ (∀ p, p ≠ temp → p ≠ target →
        fsGet (fetch_image env uid gid fs temp target content).1 p = fsGet fs p) := by
  have htne : target ≠ temp := fun h => hne h.symm
  obtain ⟨co, dl, chown_ok, chmod_ok⟩ := env
  cases co with
  | false =>
    have hres : fetch_image ⟨false, dl, chown_ok, chmod_ok⟩ uid gid fs temp target content
        = (fsUnlink (fsSet fs temp { content := 0, owner := 0, group := 0, mode := 0o600 })
            temp, some FetchStep.closeStep) := by
      simp [fetch_image]
    refine ⟨fun _ => ⟨by rw [hres]; rfl, ?_, ?_⟩, ?_, fun p hp hpt => ?_⟩
    · rw [hres]
      exact fsGet_fsUnlink_self _ temp
    · rw [hres]
      show fsGet (fsUnlink _ temp) target = fsGet fs target
      rw [fsGet_fsUnlink_ne _ temp target htne, fsGet_fsSet_ne fs temp target _ htne]
    · intro h1 h2 h3 h4
      exact Bool.noConfusion h1
    · rw [hres]
      show fsGet (fsUnlink _ temp) p = fsGet fs p
      rw [fsGet_fsUnlink_ne _ temp p hp, fsGet_fsSet_ne fs temp p _ hp]
  | true =>
    cases dl with
    | false =>
      have hres : fetch_image ⟨true, false, chown_ok, chmod_ok⟩ uid gid fs temp target content
          = (fsUnlink (fsSet fs temp { content := 0, owner := 0, group := 0, mode := 0o600 })
              temp, some FetchStep.downloadStep) := by
        simp [fetch_image]
      refine ⟨fun _ => ⟨by rw [hres]; rfl, ?_, ?_⟩, ?_, fun p hp hpt => ?_⟩
      · rw [hres]
        exact fsGet_fsUnlink_self _ temp
      · rw [hres]
        show fsGet (fsUnlink _ temp) target = fsGet fs target
        rw [fsGet_fsUnlink_ne _ temp target htne, fsGet_fsSet_ne fs temp target _ htne]
      · intro h1 h2 h3 h4
        exact Bool.noConfusion h2
      · rw [hres]
        show fsGet (fsUnlink _ temp) p = fsGet fs p
        rw [fsGet_fsUnlink_ne _ temp p hp, fsGet_fsSet_ne fs temp p _ hp]
    | true =>
      cases chown_ok with
      | false =>
        have hres : fetch_image ⟨true, true, false, chmod_ok⟩ uid gid fs temp target content
            = (fsUnlink (fsSet (fsSet fs temp
                  { content := 0, owner := 0, group := 0, mode := 0o600 }) temp
                  { content := content, owner := 0, group := 0, mode := 0o600 }) temp,
               some FetchStep.chownStep) := by
          simp [fetch_image]
        refine ⟨fun _ => ⟨by rw [hres]; rfl, ?_, ?_⟩, ?_, fun p hp hpt => ?_⟩
        · rw [hres]
          exact fsGet_fsUnlink_self _ temp
        · rw [hres]
          show fsGet (fsUnlink _ temp) target = fsGet fs target
          rw [fsGet_fsUnlink_ne _ temp target htne, fsGet_fsSet_ne _ temp target _ htne,
            fsGet_fsSet_ne fs temp target _ htne]
        · intro h1 h2 h3 h4
          exact Bool.noConfusion h3
        · rw [hres]
          show fsGet (fsUnlink _ temp) p = fsGet fs p
          rw [fsGet_fsUnlink_ne _ temp p hp, fsGet_fsSet_ne _ temp p _ hp,
            fsGet_fsSet_ne fs temp p _ hp]
      | true =>
        cases chmod_ok with
        | false =>
          have hres : fetch_image ⟨true, true, true, false⟩ uid gid fs temp target content
              = (fsUnlink (fsSet (fsSet (fsSet fs temp
                    { content := 0, owner := 0, group := 0, mode := 0o600 }) temp
                    { content := content, owner := 0, group := 0, mode := 0o600 }) temp
                    { content := content, owner := uid, group := gid, mode := 0o600 }) temp,
                 some FetchStep.chmodStep) := by
            simp [fetch_image, fsGet_fsSet_self]
          refine ⟨fun _ => ⟨by rw [hres]; rfl, ?_, ?_⟩, ?_, fun p hp hpt => ?_⟩
          · rw [hres]
            exact fsGet_fsUnlink_self _ temp
          · rw [hres]
            show fsGet (fsUnlink _ temp) target = fsGet fs target
            rw [fsGet_fsUnlink_ne _ temp target htne, fsGet_fsSet_ne _ temp target _ htne,
              fsGet_fsSet_ne _ temp target _ htne, fsGet_fsSet_ne fs temp target _ htne]
          · intro h1 h2 h3 h4
            exact Bool.noConfusion h4
          · rw [hres]
            show fsGet (fsUnlink _ temp) p = fsGet fs p
            rw [fsGet_fsUnlink_ne _ temp p hp, fsGet_fsSet_ne _ temp p _ hp,
              fsGet_fsSet_ne _ temp p _ hp, fsGet_fsSet_ne fs temp p _ hp]
        | true =>
          have hres : fetch_image ⟨true, true, true, true⟩ uid gid fs temp target content
              = (fsSet (fsUnlink (fsSet (fsSet (fsSet (fsSet fs temp
                    { content := 0, owner := 0, group := 0, mode := 0o600 }) temp
                    { content := content, owner := 0, group := 0, mode := 0o600 }) temp
                    { content := content, owner := uid, group := gid, mode := 0o600 }) temp
                    { content := content, owner := uid, group := gid, mode := 0o644 }) temp)
                  target { content := content, owner := uid, group := gid, mode := 0o644 },
                 none) := by
            simp [fetch_image, fsRename, fsGet_fsSet_self]
          refine ⟨?_, fun _ _ _ _ => ⟨by rw [hres], ?_, ?_⟩, fun p hp hpt => ?_⟩
          · intro hfail
            rcases hfail with h | h | h | h <;> exact Bool.noConfusion h
          · rw [hres]
            show fsGet (fsSet _ target _) temp = none
            rw [fsGet_fsSet_ne _ target temp _ hne]
            exact fsGet_fsUnlink_self _ temp
          · rw [hres]
            exact fsGet_fsSet_self _ target _
          · rw [hres]
            show fsGet (fsSet _ target _) p = fsGet fs p
            rw [fsGet_fsSet_ne _ target p _ hpt, fsGet_fsUnlink_ne _ temp p hp,
              fsGet_fsSet_ne _ temp p _ hp, fsGet_fsSet_ne _ temp p _ hp,
              fsGet_fsSet_ne _ temp p _ hp, fsGet_fsSet_ne fs temp p _ hp]

theorem c7_witness :
    "t" ≠ "g"
    ∧ ((fetch_image ⟨true, false, true, true⟩ 5 6 [("g", ⟨9, 1, 1, 420⟩)] "t" "g" 3).2.isSome
        = true
      ∧ fsGet (fetch_image ⟨true, false, true, true⟩ 5 6 [("g", ⟨9, 1, 1, 420⟩)] "t" "g" 3).1
          "t" = none
      ∧ fsGet (fetch_image ⟨true, false, true, true⟩ 5 6 [("g", ⟨9, 1, 1, 420⟩)] "t" "g" 3).1
          "g" = fsGet [("g", ⟨9, 1, 1, 420⟩)] "g") := by
  refine ⟨by decide, ?_⟩
  exact (c7_fetch_atomic ⟨true, false, true, true⟩ 5 6 [("g", ⟨9, 1, 1, 420⟩)] "t" "g" 3
    (by decide)).1 (Or.inr (Or.inl rfl))

/-- Claim C8: `_delete_images` treats a "not found" or "forbidden" response
from the store as success for that artifact and continues with the
remaining ones — so it succeeds exactly when no reference produces any
other error, and repeating the cleanup on already-deleted artifacts (all
responses "not found"/"forbidden") does not raise — while any other store
error propagates to the caller, naming the failing reference. -/
theorem c8_delete_images_benign (store : Nat → DeleteOutcome) (refs : List Nat) :
    (_delete_images store refs = Except.ok () ↔
      ∀ r ∈ refs, store r ≠ DeleteOutcome.otherErr)
    ∧ (∀ r rest, store r ≠ DeleteOutcome.otherErr →
        _delete_images store (r :: rest) = _delete_images store rest)
    ∧ (∀ r rest, store r = DeleteOutcome.otherErr →
        _delete_images store (r :: rest) = Except.error r) := by
  refine ⟨?_, ?_, ?_⟩
  · induction refs with
    | nil => simp [_delete_images]
    | cons a t ih =>
      cases hsa : store a with
      | deleted => simp [_delete_images, hsa, ih]
      | notFoundErr => simp [_delete_images, hsa, ih]
      | forbiddenErr => simp [_delete_images, hsa, ih]
      | otherErr => simp [_delete_images, hsa]
  · intro r rest hr
    cases hsr : store r with
    | deleted => simp [_delete_images, hsr]
    | notFoundErr => simp [_delete_images, hsr]
    | forbiddenErr => simp [_delete_images, hsr]
    | otherErr => exact absurd hsr hr
  · intro r rest hr
    simp [_delete_images, hr]

theorem c8_witness :
    _delete_images
      (fun r => if r = 1 then DeleteOutcome.notFoundErr else DeleteOutcome.forbiddenErr)
      [1, 2] = Except.ok () :=
  (c8_delete_images_benign
    (fun r => if r = 1 then DeleteOutcome.notFoundErr else DeleteOutcome.forbiddenErr)
    [1, 2]).1.mpr (by decide)

theorem alGet_append_single_self [BEq κ] [LawfulBEq κ] (m : List (κ × α)) (n : κ) (x : α)
    (h : ∀ q ∈ m, q.1 ≠ n) : alGet (m ++ [(n, x)]) n = some x := by
  rw [alGet_append, alGet_none_of_keys_ne m n h]
  simp [alGet]

theorem alGet_append_single_ne [BEq κ] [LawfulBEq κ] (m : List (κ × α)) (n : κ) (x : α)
    (j : κ) (h : j ≠ n) : alGet (m ++ [(n, x)]) j = alGet m j := by
  rw [alGet_append]
  cases halm : alGet m j with
  | some v => rfl
  | none =>
    have e : (n == j) = false := beq_eq_false_iff_ne.mpr (fun hh => h hh.symm)
    simp [alGet, e]

theorem map_upd_id [BEq κ] [LawfulBEq κ] {β} (l : List (κ × β)) (k : κ) (f : β → β)
    (hk : ∀ q ∈ l, q.1 ≠ k) :
    l.map (fun q => if q.1 == k then (q.1, f q.2) else q) = l := by
  induction l with
  | nil => rfl
  | cons a t ih =>
    have e : (a.1 == k) = false :=
      beq_eq_false_iff_ne.mpr (hk a (List.mem_cons_self a t))
    simp only [List.map_cons, e, Bool.false_eq_true, if_false]
    rw [ih (fun q hq => hk q (List.mem_cons_of_mem a hq))]

theorem map_updprops_id (l : List (Nat × ImageRec)) (k : Nat) (props : Tags)
    (hk : ∀ q ∈ l, q.1 ≠ k) :
    l.map (fun p => if p.1 == k then (p.1, { p.2 with properties := props }) else p) = l := by
  induction l with
  | nil => rfl
  | cons a t ih =>
    have e : (a.1 == k) = false :=
      beq_eq_false_iff_ne.mpr (hk a (List.mem_cons_self a t))
    simp only [List.map_cons, e, Bool.false_eq_true, if_false]
    rw [ih (fun q hq => hk q (List.mem_cons_of_mem a hq))]

theorem alGet_eq_of_mem_pairwise (l : List (Nat × ImageRec))
    (hpw : l.Pairwise (fun a b => a.1 < b.1)) (q : Nat × ImageRec) (hq : q ∈ l) :
    alGet l q.1 = some q.2 := by
  induction l with
  | nil => cases hq
  | cons a t ih =>
    rcases List.mem_cons.mp hq with h | h
    · subst h
      simp [alGet]
    · have hlt : a.1 < q.1 := (List.pairwise_cons.mp hpw).1 q h
      have e : (a.1 == q.1) = false := beq_eq_false_iff_ne.mpr (Nat.ne_of_lt hlt)
      simp only [alGet, e, Bool.false_eq_true, if_false]
      exact ih (List.pairwise_cons.mp hpw).2 h

/-- `_get_glance_displayname_and_type` tags the file "Live-Image" exactly
when its name ends in ".gc", and "Image" otherwise. -/
theorem glance_type_spec (inst : UploadInstance) (f : String) :
    (_get_glance_displayname_and_type inst f).2
      = (if py_endswith f ".gc" then "Live-Image" else "Image") := by
  unfold _get_glance_displayname_and_type
  by_cases h1 : py_endswith f ".gc"
  · simp [h1]
  · by_cases h2 : py_endswith f ".disk" <;> simp [h1, h2]

/-- Characterization of `_friendly_upload` on a well-formed store: it
appends exactly one image, named by `_get_glance_displayname_and_type`,
whose properties carry `instance_uuid`, `image_type` and `file_name`. -/
theorem friendly_upload_spec (st : ImgStore) (inst : UploadInstance) (f : String)
    (hWF : storeWF st) :
    _friendly_upload st inst f =
      ({ images := st.images ++ [(st.nextId,
           { name := (_get_glance_displayname_and_type inst f).1
             properties := tagSet (tagSet [("instance_uuid", PyVal.str inst.uuid)]
               "image_type" (PyVal.str (_get_glance_displayname_and_type inst f).2))
               "file_name" (PyVal.str (basename f)) })]
         nextId := st.nextId + 1 },
       (_get_glance_displayname_and_type inst f).1, st.nextId) := by
  have hne : ∀ q ∈ st.images, q.1 ≠ st.nextId :=
    fun q hq => Nat.ne_of_lt (hWF.1 q hq)
  unfold _friendly_upload image_create image_show_props image_update_props
  simp only
  rw [alGet_append_single_self st.images st.nextId _ hne]
  simp only
  rw [List.map_append, map_updprops_id st.images st.nextId _ hne]
  simp [tagSet, alSet]

theorem storeWF_empty : storeWF emptyStore := by
  constructor
  · intro p hp
    cases hp
  · exact List.Pairwise.nil

theorem storeWF_append (st : ImgStore) (rec : ImageRec) (hWF : storeWF st) :
    storeWF { images := st.images ++ [(st.nextId, rec)], nextId := st.nextId + 1 } := by
  constructor
  · intro p hp
    rcases List.mem_append.mp hp with h | h
    · exact Nat.lt_succ_of_lt (hWF.1 p h)
    · simp at h
      rw [h]
      exact Nat.lt_succ_self _
  · rw [List.pairwise_append]
    refine ⟨hWF.2, List.pairwise_singleton _ _, ?_⟩
    intro a ha b hb
    simp at hb
    rw [hb]
    exact hWF.1 a ha

set_option maxHeartbeats 1000000 in
/-- Invariant of the `_upload_files` loop: one image per file; the images
visible before the loop are untouched; the number of "Live-Image"-tagged
store records grows by exactly the number of files ending in ".gc"; the
remembered descriptor (when present) is a ".gc" file's image, already
tagged "Live-Image" with its `file_name`; and no descriptor is remembered
exactly when no file ends in ".gc". -/
theorem upload_loop_spec (inst : UploadInstance) (files : List String) :
    ∀ st : ImgStore, storeWF st →
    ∃ st' refs dref others,
      upload_files_loop st inst files = (st', refs, dref, others)
      ∧ storeWF st'
      ∧ st'.nextId = st.nextId + files.length
      ∧ refs.length = files.length
      ∧ (∀ j, j < st.nextId → alGet st'.images j = alGet st.images j)
      ∧ countLive st' = countLive st + files.countP (fun f => py_endswith f ".gc")
      ∧ (∀ d, dref = some d →
          ∃ f, f ∈ files ∧ py_endswith f ".gc" = true
          ∧ ∃ rec, alGet st'.images d = some rec
            ∧ tagGet rec.properties "image_type" = some (PyVal.str "Live-Image")
            ∧ tagGet rec.properties "file_name" = some (PyVal.str (basename f)))
      ∧ (dref = none → files.countP (fun f => py_endswith f ".gc") = 0) := by
  induction files with
  | nil =>
    intro st hWF
    refine ⟨st, [], none, [], rfl, hWF, by simp, rfl, fun j _ => rfl, by simp,
      fun d hd => Option.noConfusion hd, fun _ => rfl⟩
  | cons f rest ih =>
    intro st hWF
    have hfu := friendly_upload_spec st inst f hWF
    set st1 : ImgStore :=
      { images := st.images ++ [(st.nextId,
          { name := (_get_glance_displayname_and_type inst f).1,
            properties := tagSet (tagSet [("instance_uuid", PyVal.str inst.uuid)]
              "image_type" (PyVal.str (_get_glance_displayname_and_type inst f).2))
              "file_name" (PyVal.str (basename f)) })],
        nextId := st.nextId + 1 } with hst1
    have hWF1 : storeWF st1 := storeWF_append st _ hWF
    have hn1 : st1.nextId = st.nextId + 1 := by rw [hst1]
    obtain ⟨st2, refs, dref, others, hloop, hWF2, hnx2, hlen2, hpres2, hcount2, hdref2, hnone2⟩ :=
      ih st1 hWF1
    have hget1 : alGet st1.images st.nextId = some
        { name := (_get_glance_displayname_and_type inst f).1,
          properties := tagSet (tagSet [("instance_uuid", PyVal.str inst.uuid)]
            "image_type" (PyVal.str (_get_glance_displayname_and_type inst f).2))
            "file_name" (PyVal.str (basename f)) } := by
      rw [hst1]
      exact alGet_append_single_self st.images st.nextId _
        (fun q hq => Nat.ne_of_lt (hWF.1 q hq))
    have htype : tagGet (tagSet (tagSet [("instance_uuid", PyVal.str inst.uuid)]
        "image_type" (PyVal.str (_get_glance_displayname_and_type inst f).2))
        "file_name" (PyVal.str (basename f))) "image_type"
        = some (PyVal.str (if py_endswith f ".gc" then "Live-Image" else "Image")) := by
      rw [show tagGet (tagSet (tagSet [("instance_uuid", PyVal.str inst.uuid)]
            "image_type" (PyVal.str (_get_glance_displayname_and_type inst f).2))
            "file_name" (PyVal.str (basename f))) "image_type"
          = tagGet (tagSet [("instance_uuid", PyVal.str inst.uuid)]
            "image_type" (PyVal.str (_get_glance_displayname_and_type inst f).2)) "image_type"
        from alGet_alSet_ne _ "file_name" "image_type" _ (by decide)]
      rw [show tagGet (tagSet [("instance_uuid", PyVal.str inst.uuid)]
            "image_type" (PyVal.str (_get_glance_displayname_and_type inst f).2)) "image_type"
          = some (PyVal.str (_get_glance_displayname_and_type inst f).2)
        from alGet_alSet_self _ "image_type" _]
      rw [glance_type_spec]
    have hfname : tagGet (tagSet (tagSet [("instance_uuid", PyVal.str inst.uuid)]
        "image_type" (PyVal.str (_get_glance_displayname_and_type inst f).2))
        "file_name" (PyVal.str (basename f))) "file_name"
        = some (PyVal.str (basename f)) := alGet_alSet_self _ "file_name" _
    have hcount1 : countLive st1 = countLive st
        + (if py_endswith f ".gc" then 1 else 0) := by
      have he : (tagGet (tagSet (tagSet [("instance_uuid", PyVal.str inst.uuid)]
            "image_type" (PyVal.str (_get_glance_displayname_and_type inst f).2))
            "file_name" (PyVal.str (basename f))) "image_type"
            == some (PyVal.str "Live-Image")) = py_endswith f ".gc" := by
        rw [htype]
        by_cases hgc : py_endswith f ".gc" <;> simp [hgc]
      unfold countLive
      rw [hst1]
      rw [List.countP_append, List.countP_singleton]
      simp only [he]
    by_cases hgc : py_endswith f ".gc"
    · have hstep : upload_files_loop st inst (f :: rest)
          = (st2, st.nextId :: refs, some (dref.getD st.nextId), others) := by
        unfold upload_files_loop
        simp only [hfu, hloop, hgc, if_true]
      refine ⟨st2, st.nextId :: refs, some (dref.getD st.nextId), others, hstep, hWF2,
        ?_, ?_, ?_, ?_, ?_, ?_⟩
      · rw [hnx2, hn1]
        simp only [List.length_cons]
        omega
      · simp [hlen2]
      · intro j hj
        rw [hpres2 j (by rw [hn1]; exact Nat.lt_succ_of_lt hj)]
        rw [hst1]
        exact alGet_append_single_ne st.images st.nextId _ j (Nat.ne_of_lt hj)
      · rw [hcount2, hcount1, List.countP_cons]
        simp only [hgc, if_true]
        omega
      · intro d hd
        have hd' : dref.getD st.nextId = d := by
          injection hd
        cases hdr : dref with
        | some d0 =>
          rw [hdr] at hd'
          simp at hd'
          obtain ⟨f', hf'mem, hf'gc, rec, hrec, hrt, hrf⟩ := hdref2 d0 hdr
          exact ⟨f', List.mem_cons_of_mem f hf'mem, hf'gc, rec, hd' ▸ hrec, hrt, hrf⟩
        | none =>
          rw [hdr] at hd'
          simp at hd'
          refine ⟨f, List.mem_cons_self f rest, hgc,
            { name := (_get_glance_displayname_and_type inst f).1,
              properties := tagSet (tagSet [("instance_uuid", PyVal.str inst.uuid)]
                "image_type" (PyVal.str (_get_glance_displayname_and_type inst f).2))
                "file_name" (PyVal.str (basename f)) }, ?_, ?_, ?_⟩
          · rw [← hd']
            rw [hpres2 st.nextId (by rw [hn1]; exact Nat.lt_succ_self _)]
            exact hget1
          · rw [htype]
            simp [hgc]
          · exact hfname
      · intro hcon
        cases hcon
    · have hgcF : py_endswith f ".gc" = false := bool_false_of_not_true hgc
      have hstep : upload_files_loop st inst (f :: rest)
          = (st2, st.nextId :: refs, dref,
             ((_get_glance_displayname_and_type inst f).1, st.nextId) :: others) := by
        unfold upload_files_loop
        simp only [hfu, hloop, hgcF, Bool.false_eq_true, if_false]
      refine ⟨st2, st.nextId :: refs, dref,
        ((_get_glance_displayname_and_type inst f).1, st.nextId) :: others, hstep, hWF2,
        ?_, ?_, ?_, ?_, ?_, ?_⟩
      · rw [hnx2, hn1]
        simp only [List.length_cons]
        omega
      · simp [hlen2]
      · intro j hj
        rw [hpres2 j (by rw [hn1]; exact Nat.lt_succ_of_lt hj)]
        rw [hst1]
        exact alGet_append_single_ne st.images st.nextId _ j (Nat.ne_of_lt hj)
      · rw [hcount2, hcount1, List.countP_cons]
        simp only [hgcF, Bool.false_eq_true, if_false]
        omega
      · intro d hd
        obtain ⟨f', hf'mem, hf'gc, rec, hrec, hrt, hrf⟩ := hdref2 d hd
        exact ⟨f', List.mem_cons_of_mem f hf'mem, hf'gc, rec, hrec, hrt, hrf⟩
      · intro hnone
        rw [List.countP_cons]
        simp only [hgcF, Bool.false_eq_true, if_false]
        rw [hnone2 hnone]

theorem alGet_map_updprops_self (l : List (Nat × ImageRec)) (k : Nat) (props : Tags) :
    alGet (l.map (fun p => if p.1 == k then (p.1, { p.2 with properties := props }) else p)) k
      = (alGet l k).map (fun r => { r with properties := props }) := by
  induction l with
  | nil => rfl
  | cons a t ih =>
    by_cases ha : a.1 = k
    · have e1 : (a.1 == k) = true := by simp [ha]
      simp only [List.map_cons, alGet, e1, if_true]
      rfl
    · have e1 : (a.1 == k) = false := by simp [ha]
      simp only [List.map_cons, alGet, e1, Bool.false_eq_true, if_false]
      exact ih

theorem alGet_map_updprops_ne (l : List (Nat × ImageRec)) (k j : Nat) (props : Tags)
    (h : j ≠ k) :
    alGet (l.map (fun p => if p.1 == k then (p.1, { p.2 with properties := props }) else p)) j
      = alGet l j := by
  induction l with
  | nil => rfl
  | cons a t ih =>
    by_cases ha : a.1 = k
    · have e1 : (a.1 == k) = true := by simp [ha]
      have e2 : (a.1 == j) = false := by
        refine beq_eq_false_iff_ne.mpr ?_
        rw [ha]
        exact fun hh => h hh.symm
      simp only [List.map_cons, alGet, e1, if_true, e2, Bool.false_eq_true, if_false]
      exact ih
    · have e1 : (a.1 == k) = false := by simp [ha]
      by_cases haj : a.1 = j
      · have e2 : (a.1 == j) = true := by simp [haj]
        simp only [List.map_cons, alGet, e1, Bool.false_eq_true, if_false, e2, if_true]
      · have e2 : (a.1 == j) = false := by simp [haj]
        simp only [List.map_cons, alGet, e1, e2, Bool.false_eq_true, if_false]
        exact ih

theorem countP_map_updprops_preserve (l : List (Nat × ImageRec)) (k : Nat) (props : Tags)
    (p : Nat × ImageRec → Bool)
    (hpres : ∀ q ∈ l, q.1 = k → p (q.1, { q.2 with properties := props }) = p q) :
    (l.map (fun q => if q.1 == k then (q.1, { q.2 with properties := props }) else q)).countP p
      = l.countP p := by
  induction l with
  | nil => rfl
  | cons a t ih =>
    rw [List.map_cons, List.countP_cons, List.countP_cons,
      ih (fun q hq hqk => hpres q (List.mem_cons_of_mem a hq) hqk)]
    congr 1
    by_cases ha : a.1 = k
    · have e : (a.1 == k) = true := by simp [ha]
      simp only [e, if_true]
      rw [hpres a (List.mem_cons_self a t) ha]
    · have e : (a.1 == k) = false := by simp [ha]
      simp only [e, Bool.false_eq_true, if_false]

theorem tagGet_foldl_data (others : List (String × Nat)) (k : String)
    (hk : ∀ q ∈ others, ("live_image_data_" ++ q.1) ≠ k) :
    ∀ ps : Tags,
      tagGet (others.foldl
        (fun ps q => tagSet ps ("live_image_data_" ++ q.1) (PyVal.int q.2)) ps) k
      = tagGet ps k := by
  induction others with
  | nil => intro ps; rfl
  | cons a t ih =>
    intro ps
    rw [List.foldl_cons, ih (fun q hq => hk q (List.mem_cons_of_mem a hq))]
    exact alGet_alSet_ne ps ("live_image_data_" ++ a.1) k (PyVal.int a.2)
      (fun he => hk a (List.mem_cons_self a t) he.symm)

theorem live_data_ne_image_type (n : String) :
    ("live_image_data_" ++ n) ≠ "image_type" := by
  intro h
  have h1 := congrArg (fun s => (s.data)[10]?) h
  have h2 : some '_' = (none : Option Char) := h1
  exact Option.noConfusion h2

theorem live_data_ne_live_image (n : String) :
    ("live_image_data_" ++ n) ≠ "live_image" := by
  intro h
  have h1 := congrArg (fun s => (s.data)[10]?) h
  have h2 : some '_' = (none : Option Char) := h1
  exact Option.noConfusion h2

theorem live_data_ne_image_state (n : String) :
    ("live_image_data_" ++ n) ≠ "image_state" := by
  intro h
  have h1 := congrArg (fun s => (s.data)[11]?) h
  have h2 : some 'd' = (none : Option Char) := h1
  exact Option.noConfusion h2

theorem live_data_ne_owner_id (n : String) :
    ("live_image_data_" ++ n) ≠ "owner_id" := by
  intro h
  have h1 := congrArg (fun s => (s.data)[8]?) h
  have h2 : some 'g' = (none : Option Char) := h1
  exact Option.noConfusion h2

theorem live_data_ne_live_image_source (n : String) :
    ("live_image_data_" ++ n) ≠ "live_image_source" := by
  intro h
  have h1 := congrArg (fun s => (s.data)[11]?) h
  have h2 : some 'd' = some 's' := h1
  have h3 : 'd' = 's' := Option.some.inj h2
  exact absurd h3 (by decide)

theorem live_data_ne_instance_uuid (n : String) :
    ("live_image_data_" ++ n) ≠ "instance_uuid" := by
  intro h
  have h1 := congrArg (fun s => (s.data)[13]?) h
  have h2 : some 't' = (none : Option Char) := h1
  exact Option.noConfusion h2

theorem live_data_ne_file_name (n : String) :
    ("live_image_data_" ++ n) ≠ "file_name" := by
  intro h
  have h1 := congrArg (fun s => (s.data)[9]?) h
  have h2 : some 'e' = (none : Option Char) := h1
  exact Option.noConfusion h2

/-- Claim C9: on the durable path, uploading a blessed-file list containing
exactly one ".gc" file produces one store artifact per file and exactly one
descriptor artifact — the ".gc" file's image, tagged `image_type:
"Live-Image"` (auxiliary disks get "Image") — and stamps the descriptor's
store record with `live_image`, `image_state: available`, the owner and the
source-instance identity, so launch can recognize it among the artifacts. -/
theorem c9_upload_one_descriptor (inst : UploadInstance) (files : List String)
    (tmpl : Option String)
    (h1 : files.countP (fun f => py_endswith f ".gc") = 1) :
    ∃ st' : ImgStore, ∃ refs : List Nat,
      _upload_files emptyStore inst files tmpl = Except.ok (st', refs)
      ∧ refs.length = files.length
      ∧ countLive st' = 1
      ∧ (∃ d : Nat, ∃ rec : ImageRec, alGet st'.images d = some rec
          ∧ tagGet rec.properties "image_type" = some (PyVal.str "Live-Image")
          ∧ tagGet rec.properties "live_image" = some (PyVal.bool true)
          ∧ tagGet rec.properties "image_state" = some (PyVal.str "available")
          ∧ tagGet rec.properties "owner_id" = some (PyVal.str inst.project_id)
          ∧ tagGet rec.properties "live_image_source" = some (PyVal.str inst.name)
          ∧ tagGet rec.properties "instance_uuid" = some (PyVal.str inst.uuid)
          ∧ (∃ f, f ∈ files ∧ py_endswith f ".gc" = true
              ∧ tagGet rec.properties "file_name" = some (PyVal.str (basename f)))) := by
  obtain ⟨st1, refs, dref, others, hloop, hWF1, _, hlen, _, hcount, hdref, hnone⟩ :=
    upload_loop_spec inst files emptyStore storeWF_empty
  cases hdr : dref with
  | none =>
    rw [hnone hdr] at h1
    exact absurd h1 (by decide)
  | some d =>
    obtain ⟨fgc, hfmem, hfgc, rec_d, hrecd, hrt, hrf⟩ := hdref d hdr
    have hshow : image_show_props st1 d = rec_d.properties := by
      unfold image_show_props
      rw [hrecd]
    set props1 : Tags := tagSet (tagSet (tagSet (tagSet (tagSet (tagSet rec_d.properties
        "live_image" (PyVal.bool true))
        "image_state" (PyVal.str "available"))
        "owner_id" (PyVal.str inst.project_id))
        "live_image_source" (PyVal.str inst.name))
        "instance_uuid" (PyVal.str inst.uuid))
        "instance_type_id" (PyVal.int inst.instance_type_id) with hprops1
    set props2 : Tags := others.foldl
        (fun ps q => tagSet ps ("live_image_data_" ++ q.1) (PyVal.int q.2)) props1 with hprops2
    set props3 : Tags := (match tmpl with
        | some t => tagSet props2 "vms_policy_template" (PyVal.str t)
        | none => props2) with hprops3
    have hupload : _upload_files emptyStore inst files tmpl
        = Except.ok (image_update_props st1 d props3, refs) := by
      unfold _upload_files
      simp only [hloop, hdr, hshow]
    have hIT : tagGet props1 "image_type" = some (PyVal.str "Live-Image") := by
      rw [hprops1]
      simp only [tagGet, tagSet]
      rw [alGet_alSet_ne _ "instance_type_id" "image_type" _ (by decide),
        alGet_alSet_ne _ "instance_uuid" "image_type" _ (by decide),
        alGet_alSet_ne _ "live_image_source" "image_type" _ (by decide),
        alGet_alSet_ne _ "owner_id" "image_type" _ (by decide),
        alGet_alSet_ne _ "image_state" "image_type" _ (by decide),
        alGet_alSet_ne _ "live_image" "image_type" _ (by decide)]
      exact hrt
    have hLI : tagGet props1 "live_image" = some (PyVal.bool true) := by
      rw [hprops1]
      simp only [tagGet, tagSet]
      rw [alGet_alSet_ne _ "instance_type_id" "live_image" _ (by decide),
        alGet_alSet_ne _ "instance_uuid" "live_image" _ (by decide),
        alGet_alSet_ne _ "live_image_source" "live_image" _ (by decide),
        alGet_alSet_ne _ "owner_id" "live_image" _ (by decide),
        alGet_alSet_ne _ "image_state" "live_image" _ (by decide)]
      exact alGet_alSet_self _ "live_image" _
    have hIS : tagGet props1 "image_state" = some (PyVal.str "available") := by
      rw [hprops1]
      simp only [tagGet, tagSet]
      rw [alGet_alSet_ne _ "instance_type_id" "image_state" _ (by decide),
        alGet_alSet_ne _ "instance_uuid" "image_state" _ (by decide),
        alGet_alSet_ne _ "live_image_source" "image_state" _ (by decide),
        alGet_alSet_ne _ "owner_id" "image_state" _ (by decide)]
      exact alGet_alSet_self _ "image_state" _
    have hOI : tagGet props1 "owner_id" = some (PyVal.str inst.project_id) := by
      rw [hprops1]
      simp only [tagGet, tagSet]
      rw [alGet_alSet_ne _ "instance_type_id" "owner_id" _ (by decide),
        alGet_alSet_ne _ "instance_uuid" "owner_id" _ (by decide),
        alGet_alSet_ne _ "live_image_source" "owner_id" _ (by decide)]
      exact alGet_alSet_self _ "owner_id" _
    have hLS : tagGet props1 "live_image_source" = some (PyVal.str inst.name) := by
      rw [hprops1]
      simp only [tagGet, tagSet]
      rw [alGet_alSet_ne _ "instance_type_id" "live_image_source" _ (by decide),
        alGet_alSet_ne _ "instance_uuid" "live_image_source" _ (by decide)]
      exact alGet_alSet_self _ "live_image_source" _
    have hIU : tagGet props1 "instance_uuid" = some (PyVal.str inst.uuid) := by
      rw [hprops1]
      simp only [tagGet, tagSet]
      rw [alGet_alSet_ne _ "instance_type_id" "instance_uuid" _ (by decide)]
      exact alGet_alSet_self _ "instance_uuid" _
    have hFN : tagGet props1 "file_name" = some (PyVal.str (basename fgc)) := by
      rw [hprops1]
      simp only [tagGet, tagSet]
      rw [alGet_alSet_ne _ "instance_type_id" "file_name" _ (by decide),
        alGet_alSet_ne _ "instance_uuid" "file_name" _ (by decide),
        alGet_alSet_ne _ "live_image_source" "file_name" _ (by decide),
        alGet_alSet_ne _ "owner_id" "file_name" _ (by decide),
        alGet_alSet_ne _ "image_state" "file_name" _ (by decide),
        alGet_alSet_ne _ "live_image" "file_name" _ (by decide)]
      exact hrf
    have h3eq : ∀ k : String, k ≠ "vms_policy_template" →
        (∀ q ∈ others, ("live_image_data_" ++ q.1) ≠ k) →
        tagGet props3 k = tagGet props1 k := by
      intro k hk1 hk2
      rw [hprops3]
      cases tmpl with
      | none =>
        rw [hprops2]
        exact tagGet_foldl_data others k hk2 props1
      | some t =>
        rw [show tagGet (tagSet props2 "vms_policy_template" (PyVal.str t)) k
            = tagGet props2 k from alGet_alSet_ne _ _ _ _ hk1]
        rw [hprops2]
        exact tagGet_foldl_data others k hk2 props1
    have h3IT : tagGet props3 "image_type" = some (PyVal.str "Live-Image") := by
      rw [h3eq "image_type" (by decide) (fun q _ => live_data_ne_image_type q.1)]
      exact hIT
    have h3LI : tagGet props3 "live_image" = some (PyVal.bool true) := by
      rw [h3eq "live_image" (by decide) (fun q _ => live_data_ne_live_image q.1)]
      exact hLI
    have h3IS : tagGet props3 "image_state" = some (PyVal.str "available") := by
      rw [h3eq "image_state" (by decide) (fun q _ => live_data_ne_image_state q.1)]
      exact hIS
    have h3OI : tagGet props3 "owner_id" = some (PyVal.str inst.project_id) := by
      rw [h3eq "owner_id" (by decide) (fun q _ => live_data_ne_owner_id q.1)]
      exact hOI
    have h3LS : tagGet props3 "live_image_source" = some (PyVal.str inst.name) := by
      rw [h3eq "live_image_source" (by decide) (fun q _ => live_data_ne_live_image_source q.1)]
      exact hLS
    have h3IU : tagGet props3 "instance_uuid" = some (PyVal.str inst.uuid) := by
      rw [h3eq "instance_uuid" (by decide) (fun q _ => live_data_ne_instance_uuid q.1)]
      exact hIU
    have h3FN : tagGet props3 "file_name" = some (PyVal.str (basename fgc)) := by
      rw [h3eq "file_name" (by decide) (fun q _ => live_data_ne_file_name q.1)]
      exact hFN
    have hrecF : alGet (image_update_props st1 d props3).images d
        = some { rec_d with properties := props3 } := by
      unfold image_update_props
      simp only
      rw [alGet_map_updprops_self st1.images d props3, hrecd]
      rfl
    have hcountF : countLive (image_update_props st1 d props3) = countLive st1 := by
      unfold countLive image_update_props
      simp only
      apply countP_map_updprops_preserve
      intro q hq hqk
      have hq2 : q.2 = rec_d := by
        have hmem := alGet_eq_of_mem_pairwise st1.images hWF1.2 q hq
        rw [hqk, hrecd] at hmem
        exact (Option.some.inj hmem).symm
      show (tagGet props3 "image_type" == some (PyVal.str "Live-Image"))
          = (tagGet q.2.properties "image_type" == some (PyVal.str "Live-Image"))
      rw [hq2, h3IT, hrt]
    have hcount1 : countLive st1 = 1 := by
      rw [hcount, h1]
      rfl
    refine ⟨image_update_props st1 d props3, refs, hupload, hlen, ?_, d,
      { rec_d with properties := props3 }, hrecF, h3IT, h3LI, h3IS, h3OI, h3LS, h3IU,
      fgc, hfmem, hfgc, h3FN⟩
    rw [hcountF, hcount1]

theorem c9_witness :
    List.countP (fun f => py_endswith f ".gc") ["d/i.gc", "d/i.0.disk"] = 1
    ∧ ∃ st' : ImgStore, ∃ refs : List Nat,
      _upload_files emptyStore egUpl ["d/i.gc", "d/i.0.disk"] none = Except.ok (st', refs)
      ∧ refs.length = (["d/i.gc", "d/i.0.disk"] : List String).length
      ∧ countLive st' = 1
      ∧ (∃ d : Nat, ∃ rec : ImageRec, alGet st'.images d = some rec
          ∧ tagGet rec.properties "image_type" = some (PyVal.str "Live-Image")
          ∧ tagGet rec.properties "live_image" = some (PyVal.bool true)
          ∧ tagGet rec.properties "image_state" = some (PyVal.str "available")
          ∧ tagGet rec.properties "owner_id" = some (PyVal.str egUpl.project_id)
          ∧ tagGet rec.properties "live_image_source" = some (PyVal.str egUpl.name)
          ∧ tagGet rec.properties "instance_uuid" = some (PyVal.str egUpl.uuid)
          ∧ (∃ f, f ∈ (["d/i.gc", "d/i.0.disk"] : List String) ∧ py_endswith f ".gc" = true
              ∧ tagGet rec.properties "file_name" = some (PyVal.str (basename f)))) :=
  ⟨by decide, c9_upload_one_descriptor egUpl ["d/i.gc", "d/i.0.disk"] none (by decide)⟩
